import Mathlib

/-! # NDN-Atmos query adapter: embedding and verification

A shallow embedding of `catalog/src/query/query-adapter.hpp` (class
`atmos::query::QueryAdapter`, with the `MYSQL` specialisation of
`prepareSegments`).

* A C++ `std::string` is a Lean `String` and `std::string::length` counts its
  UTF-8 bytes (`byteLength`).  A `char*` such as `row[0]` is read as a C string:
  it ends before the first NUL byte (`cstr`), and `strlen` counts up to there.
* `size_t usedBytes` and `uint64_t segmentNo` are natural numbers: a result set
  held in memory has fewer than `2^64` rows and less than `2^64` bytes of text,
  so neither counter can wrap.
* The adapter object is a record of its members; the side effects on the face,
  on the segment cache and on the data base are recorded as logs inside that
  record.  The order of the effects of one call across these logs is given by
  its event trace (`runJsonQueryEvents`), which replays to the same adapter.
  `onQueryInterest` joins the worker thread before it returns, so the handlers
  run one after the other and the mutex is not modelled.
* Library code that the adapter calls but that is not part of the repository is
  either modelled directly (JsonCpp values and `Json::FastWriter`) or taken as a
  field of `Env` (component encoders, `Json::Reader`, the clock, MySQL, the
  lookup of the in-memory storage).  The configuration tree and the connection
  details, whose headers are not among the sources, are modelled from the spec.
-/

/-! ## JsonCpp -/

namespace Json

/-- A `Json::Value`.  The members of an object are listed in iteration order
(JsonCpp keeps them sorted by key).  Numeric values are left out. -/
inductive Value where
  | null
  | bool (b : Bool)
  | string (s : String)
  | array (xs : List Value)
  | object (ms : List (String × Value))

/-- The call `Value::append(v)`: a null value becomes a one-element array, an
array grows at the end.  (JsonCpp asserts on every other type.) -/
def Value.append : Value → Value → Value
  | .null, v => .array [v]
  | .array xs, v => .array (xs ++ [v])
  | other, _ => other

/-- The call `Value::clear()`: arrays and objects lose their elements and keep
their type; a null value stays null. -/
def Value.clear : Value → Value
  | .array _ => .array []
  | .object _ => .object []
  | other => other

/-- The call `Value::asString()`; `none` stands for the exception
"Type is not convertible to string". -/
def Value.asString : Value → Option String
  | .null => some ""
  | .bool b => some (if b then "true" else "false")
  | .string s => some s
  | .array _ => none
  | .object _ => none

/-- What a loop from `begin()` to `end()` visits: for each position the text of
`iter.key()` and the value `*iter`.  Scalars have no positions; the key of an
array element is its index. -/
def Value.entries : Value → List (String × Value)
  | .object ms => ms
  | .array xs => xs.enum.map (fun p => (toString p.1, p.2))
  | _ => []

/-- The elements of an array value (none for any other value). -/
def Value.elements : Value → List Value
  | .array xs => xs
  | _ => []

/-- Upper-case hexadecimal digit. -/
def hexDigit (n : Nat) : Char :=
  if n < 10 then Char.ofNat (48 + n) else Char.ofNat (55 + n)

/-- One character of `valueToQuotedString`: quote, backslash and the control
characters are escaped, everything else is copied. -/
def escapeChar (c : Char) : List Char :=
  if c = '"' then ['\\', '"']
  else if c = '\\' then ['\\', '\\']
  else if c.toNat = 8 then ['\\', 'b']
  else if c.toNat = 12 then ['\\', 'f']
  else if c = '\n' then ['\\', 'n']
  else if c = '\r' then ['\\', 'r']
  else if c = '\t' then ['\\', 't']
  else if 0 < c.toNat ∧ c.toNat ≤ 31 then
    ['\\', 'u', '0', '0', hexDigit (c.toNat / 16), hexDigit (c.toNat % 16)]
  else [c]

/-- JsonCpp `valueToQuotedString`. -/
def valueToQuotedString (s : String) : String :=
  "\"" ++ String.mk (s.data.flatMap escapeChar) ++ "\""

mutual
/-- Writer `FastWriter::writeValue`. -/
def writeValue : Value → String
  | .null => "null"
  | .bool b => if b then "true" else "false"
  | .string s => valueToQuotedString s
  | .array xs => "[" ++ writeElements xs ++ "]"
  | .object ms => "\x7b" ++ writeMembers ms ++ "\x7d"
/-- The elements of an array, separated by commas. -/
def writeElements : List Value → String
  | [] => ""
  | [x] => writeValue x
  | x :: y :: rest => writeValue x ++ "," ++ writeElements (y :: rest)
/-- The members of an object, separated by commas. -/
def writeMembers : List (String × Value) → String
  | [] => ""
  | [(k, v)] => valueToQuotedString k ++ ":" ++ writeValue v
  | (k, v) :: m :: rest =>
    valueToQuotedString k ++ ":" ++ writeValue v ++ "," ++ writeMembers (m :: rest)
end

/-- Writer `FastWriter::write`: the compact text of the value followed by a line
feed. -/
def FastWriter.write (root : Value) : String :=
  writeValue root ++ "\n"

end Json

/-! ## ndn-cxx -/

namespace ndn

/-- A name component, seen through `value()` / `value_size()`. -/
structure Component where
  value : String
deriving DecidableEq, Repr

/-- An NDN name. -/
abbrev Name := List Component

/-- Call `Name::append(const char*)`. -/
def Name.append (n : Name) (s : String) : Name :=
  n ++ [Component.mk s]

/-- An Interest; only its name matters to the adapter. -/
structure Interest where
  name : Name
deriving DecidableEq, Repr

/-- Which key `KeyChain::sign` used. -/
inductive Signer where
  | defaultKey
  | defaultCertificateOf (identity : Name)
deriving DecidableEq, Repr

/-- A signature: the signer and the fields of the packet it was computed
over. -/
structure Signature where
  signer : Signer
  signedName : Name
  signedContent : String
  signedFreshnessPeriod : Option Nat
  signedFinalBlockId : Option Component
deriving DecidableEq, Repr

/-- A Data packet.  The freshness period is in milliseconds. -/
structure Data where
  name : Name
  content : String
  freshnessPeriod : Option Nat
  finalBlockId : Option Component
  signature : Option Signature
deriving DecidableEq, Repr

end ndn

/-! ## The query adapter -/

namespace atmos

open ndn

/-- Method `length()` of a `std::string`: the number of its bytes, NUL bytes
included. -/
def byteLength (s : String) : Nat := s.utf8ByteSize

/-- The C string that a `char*` such as `row[0]` denotes: the bytes before the
first NUL byte.  Function `strlen` and the constructor `Json::Value(const char*)`
behind `array.append(row[0])` both read no further. -/
def cstr (s : String) : String :=
  String.mk (s.data.takeWhile (fun c => c != Char.ofNat 0))

/-- Function `strlen` of C: the number of bytes before the first NUL byte. -/
def strlen (s : String) : Nat := byteLength (cstr s)

/-- The constant `PAYLOAD_LIMIT` of `prepareSegments`. -/
def PAYLOAD_LIMIT : Nat := 7000

/-- What the adapter takes from its libraries and surroundings during one
handler call. -/
structure Env where
  /-- Library `ndn::name::Component::fromVersion`. -/
  fromVersion : Nat → Component
  /-- Library `ndn::name::Component::fromSegment`; `Name::appendSegment` appends it. -/
  fromSegment : Nat → Component
  /-- Library `Json::Reader::parse`; `none` when it returns false. -/
  parse : String → Option Json.Value
  /-- Clock reading `toUnixTimestamp(system_clock::now()).count()`. -/
  now : Nat
  /-- Library `MySQLPerformQuery` and the rows that `mysql_fetch_row` then yields
  (the bytes stored in column 0 of each, which may include NUL bytes); `none`
  for a null result set. -/
  performQuery : String → Option (List String)
  /-- Library `InMemoryStorageLru::find` on a storage that received the given
  insertions. -/
  cacheFind : List Data → Name → Option Data

/-- Modelled from the spec: `util::ConnectionDetails` of `util/mysql-util.hpp`,
which is not among the sources; the four strings that `onConfig` passes to its
constructor, in that order. -/
structure ConnectionDetails where
  server : String
  user : String
  password : String
  database : String
deriving DecidableEq, Repr

/-- The members of a `QueryAdapter<MYSQL>`, and the logs of its effects. -/
structure QueryAdapter where
  m_prefix : Name
  m_signingId : Name
  m_activeQueryToFirstResponse : List (String × Data)
  /-- The Data handed to `m_cache.insert`, in call order. -/
  m_cache : List Data
  /-- The Data handed to `m_face->put`, in call order. -/
  facePut : List Data
  /-- The SQL strings handed to `MySQLPerformQuery`, in call order. -/
  sqlExecuted : List String
  /-- The connection that `MySQLConnectionSetup` opened, named by the details
  it was opened with; `none` before `setDatabaseHandler`. -/
  m_databaseHandler : Option ConnectionDetails := none
  /-- The keys of the map `m_registeredPrefixList`: the prefixes under which
  `setFilters` stored an interest filter, each once, in the order in which they
  were first assigned. -/
  m_registeredPrefixList : List Name := []

/-- How a handler can stop early. -/
inductive Fault where
  /-- Access `getName()[i]` with `i` past the last component. -/
  | nameIndexOutOfRange
  /-- Call `asString()` threw. -/
  | jsonNotConvertible
deriving DecidableEq, Repr

/-- Method `signData`: the default key when `m_signingId` is empty, otherwise the
default certificate of that identity. -/
def signData (s : QueryAdapter) (data : Data) : Data :=
  { data with
    signature := some
      { signer := if s.m_signingId.isEmpty then Signer.defaultKey
                  else Signer.defaultCertificateOf s.m_signingId
        signedName := data.name
        signedContent := data.content
        signedFreshnessPeriod := data.freshnessPeriod
        signedFinalBlockId := data.finalBlockId } }

/-- Method `makeAckData`. -/
def makeAckData (s : QueryAdapter) (interest : Interest) (version : Component) : Data :=
  let ackName := Name.append (interest.name ++ [version]) "OK"
  signData s
    { name := ackName, content := "", freshnessPeriod := none, finalBlockId := none,
      signature := none }

/-- The loop of `json2Sql` over the remaining members; the state is the text
written so far, `input` and `autocomplete`. -/
def json2SqlLoop : List (String × Json.Value) → String → Bool → Bool →
    Option (String × Bool × Bool)
  | [], sqlQuery, input, autocomplete => some (sqlQuery, input, autocomplete)
  | (key, value) :: rest, sqlQuery, input, autocomplete =>
    let sqlQuery := sqlQuery ++ (if input then " AND" else " WHERE")
    match value.asString with
    | none => none
    | some v =>
      if key = "?" then
        json2SqlLoop rest (sqlQuery ++ " name REGEXP \x27^" ++ v ++ "\x27") true true
      else
        json2SqlLoop rest (sqlQuery ++ " " ++ key ++ "=\x27" ++ v ++ "\x27") true autocomplete

/-- Method `json2Sql`: appends to `sqlQuery` and may set `autocomplete`; `none` when
`asString` throws. -/
def json2Sql (sqlQuery : String) (jsonValue : Json.Value) (autocomplete : Bool) :
    Option (String × Bool) :=
  match json2SqlLoop jsonValue.entries (sqlQuery ++ "SELECT name FROM cmip5") false
      autocomplete with
  | none => none
  | some (sqlQuery, input, autocomplete) =>
    some ((if input then sqlQuery else sqlQuery ++ " limit 0") ++ ";", autocomplete)

/-- Method `makeReplyData`.  `entry` starts as a null value, so the assignment to
`entry["next"]` or `entry["results"]` makes it an object with that one
member. -/
def makeReplyData (env : Env) (s : QueryAdapter) (segmentPrefix : Name) (value : Json.Value)
    (segmentNo : Nat) (isFinalBlock : Bool) (isAutocomplete : Bool) : Data :=
  let entry := Json.Value.object [(if isAutocomplete then "next" else "results", value)]
  let jsonMessage := Json.FastWriter.write entry
  let segmentName := segmentPrefix ++ [env.fromSegment segmentNo]
  signData s
    { name := segmentName
      content := jsonMessage ++ "\x00"
      freshnessPeriod := some 10000
      finalBlockId := if isFinalBlock then some (env.fromSegment segmentNo) else none
      signature := none }

/-- The local variables of `prepareSegments`. -/
structure Locals where
  usedBytes : Nat
  segmentNo : Nat
  array : Json.Value

/-- The `while` loop of `prepareSegments` over the rows still to be fetched. -/
def prepareSegmentsLoop (env : Env) (segmentPrefix : Name) (autocomplete : Bool) :
    List String → Locals → QueryAdapter → Locals × QueryAdapter
  | [], l, s => (l, s)
  | row :: rest, l, s =>
    let size := strlen row + 1
    let flushed : Locals × QueryAdapter :=
      if l.usedBytes + size > PAYLOAD_LIMIT then
        let data := makeReplyData env s segmentPrefix l.array l.segmentNo false autocomplete
        ({ usedBytes := 0, segmentNo := l.segmentNo + 1, array := l.array.clear },
         { s with m_cache := s.m_cache ++ [data] })
      else (l, s)
    prepareSegmentsLoop env segmentPrefix autocomplete rest
      { flushed.1 with
        array := flushed.1.array.append (Json.Value.string (cstr row))
        usedBytes := flushed.1.usedBytes + size }
      flushed.2

/-- Method `QueryAdapter<MYSQL>::prepareSegments`. -/
def prepareSegments (env : Env) (segmentPrefix : Name) (sqlString : String)
    (autocomplete : Bool) (s : QueryAdapter) : QueryAdapter :=
  let s := { s with sqlExecuted := s.sqlExecuted ++ [sqlString] }
  match env.performQuery sqlString with
  | none => s
  | some rows =>
    let r := prepareSegmentsLoop env segmentPrefix autocomplete rows
      { usedBytes := 0, segmentNo := 0, array := Json.Value.null } s
    let data := makeReplyData env r.2 segmentPrefix r.1.array r.1.segmentNo true autocomplete
    { r.2 with m_cache := r.2.m_cache ++ [data] }

/-- Method `runJsonQuery`.  The result is the adapter when the call ends and, when it
ends by a fault, that fault.  The unlocked probe of the map and the probe under
the lock that follows it see the same map, so they are one lookup here. -/
def runJsonQuery (env : Env) (interest : Interest) (s : QueryAdapter) :
    QueryAdapter × Option Fault :=
  match interest.name[ s.m_prefix.length + 1]? with
  | none => (s, some Fault.nameIndexOutOfRange)
  | some jsonStr =>
    let jsonQuery := jsonStr.value
    if byteLength jsonQuery ≤ 0 then (s, none)
    else
      match s.m_activeQueryToFirstResponse.lookup jsonQuery with
      | some first => ({ s with facePut := s.facePut ++ [first] }, none)
      | none =>
        match env.parse jsonQuery with
        | none => (s, none)
        | some parsedFromString =>
          let version := env.fromVersion env.now
          let ack := makeAckData s interest version
          match s.m_activeQueryToFirstResponse.lookup jsonQuery with
          | some first => ({ s with facePut := s.facePut ++ [first] }, none)
          | none =>
            let s1 :=
              { s with
                m_activeQueryToFirstResponse :=
                  s.m_activeQueryToFirstResponse ++ [(jsonQuery, ack)]
                facePut := s.facePut ++ [ack] }
            match json2Sql "" parsedFromString false with
            | none => (s1, some Fault.jsonNotConvertible)
            | some (sqlQuery, autocomplete) =>
              let segmentPrefix := Name.append s.m_prefix "query-results" ++ [version]
              (prepareSegments env segmentPrefix sqlQuery autocomplete s1, none)

/-- Method `onQueryInterest`, called with the prefix of the filter that matched. -/
def onQueryInterest (env : Env) (filterPrefix : Name) (interest : Interest)
    (s : QueryAdapter) : QueryAdapter × Option Fault :=
  if interest.name.length ≠ filterPrefix.length + 1 then (s, none)
  else runJsonQuery env interest s

/-- Method `onQueryResultsInterest`. -/
def onQueryResultsInterest (env : Env) (interest : Interest) (s : QueryAdapter) :
    QueryAdapter :=
  match env.cacheFind s.m_cache interest.name with
  | some data => { s with facePut := s.facePut ++ [data] }
  | none => s

/-- An adapter with the names that `onConfig` assigned, nothing registered in
the map, nothing cached, nothing sent.  The data base handler and the filter
list, which no handler reads, are left at their defaults. -/
def QueryAdapter.configured (pfx signingId : Name) : QueryAdapter :=
  { m_prefix := pfx, m_signingId := signingId, m_activeQueryToFirstResponse := [],
    m_cache := [], facePut := [], sqlExecuted := [] }

end atmos

/-! ## Auxiliary notions for the statements -/

namespace atmos

open ndn

/-- The bytes that `prepareSegments` counts for a list of rows: `strlen + 1`
for each. -/
def payloadBytes (names : List String) : Nat :=
  (names.map (fun r => strlen r + 1)).sum

/-- The value of the variable `array` once the given rows were appended to it
(each as the C string it denotes), starting from a fresh (null) value. -/
def bufferValue (names : List String) : Json.Value :=
  names.foldl (fun v r => v.append (Json.Value.string (cstr r))) Json.Value.null

/-- The rows of the loop of `prepareSegments`, grouped as the loop groups them:
the groups flushed inside the loop and the group left for the final segment.
`cur` holds the rows buffered so far. -/
def splitRows : List String → List String → List (List String) × List String
  | [], cur => ([], cur)
  | r :: rest, cur =>
    if payloadBytes cur + (strlen r + 1) > PAYLOAD_LIMIT then
      ((cur :: (splitRows rest [r]).1), (splitRows rest [r]).2)
    else splitRows rest (cur ++ [r])

/-- Non-final segments numbered from `n` on, one for each value. -/
def nonFinalSegments (env : Env) (s : QueryAdapter) (segmentPrefix : Name)
    (autocomplete : Bool) : Nat → List Json.Value → List Data
  | _, [] => []
  | n, v :: vs =>
    makeReplyData env s segmentPrefix v n false autocomplete ::
      nonFinalSegments env s segmentPrefix autocomplete (n + 1) vs

/-- The segments of one run whose buffers held the values `init` (flushed
inside the loop) and `last` (flushed after it): numbered from 0 in this order,
the last one final. -/
def runSegments (env : Env) (s : QueryAdapter) (segmentPrefix : Name) (autocomplete : Bool)
    (init : List Json.Value) (last : Json.Value) : List Data :=
  nonFinalSegments env s segmentPrefix autocomplete 0 init ++
    [makeReplyData env s segmentPrefix last init.length true autocomplete]

end atmos

/-! ## Example surroundings -/

namespace atmos

open ndn

/-- Surroundings for examples: one-byte numbers behind the marker bytes 0xFD
(version) and 0x00 (segment), a reader that knows two queries, a clock that
reads 7, and a data base that answers every query with the given rows. -/
def exampleEnv (rows : Option (List String)) : Env :=
  { fromVersion := fun n => Component.mk (String.mk [Char.ofNat 253, Char.ofNat n])
    fromSegment := fun n => Component.mk (String.mk [Char.ofNat 0, Char.ofNat n])
    parse := fun j =>
      if j = "\x7b\"?\":\"ap\"\x7d" then
        some (Json.Value.object [("?", Json.Value.string "ap")])
      else if j = "\x7b\x7d" then some (Json.Value.object [])
      else none
    now := 7
    performQuery := fun _ => rows
    cacheFind := fun cache n => cache.find? (fun d => d.name == n) }

/-- The prefix `/catalog/lap` of the scenarios. -/
def examplePrefix : Name := [Component.mk "catalog", Component.mk "lap"]

/-- A freshly configured adapter for `/catalog/lap` without signing identity. -/
def exampleAdapter : QueryAdapter := QueryAdapter.configured examplePrefix []

end atmos

namespace atmos

open ndn

/-- The row `g2` that follows the group `g` starts with a row that did not fit
into `g`: adding it would exceed `PAYLOAD_LIMIT`. -/
def NextRowOverflows (g g2 : List String) : Prop :=
  ∃ r rest, g2 = r :: rest ∧ PAYLOAD_LIMIT < payloadBytes g + (strlen r + 1)

/-- Each group fits within `PAYLOAD_LIMIT`, and each group but the last is
followed by a row that would not fit into it any more: every group is the
maximum prefix of the rows not yet emitted that fits. -/
def MaximalFit (groups : List (List String)) : Prop :=
  (∀ g ∈ groups, payloadBytes g ≤ PAYLOAD_LIMIT) ∧ List.Chain' NextRowOverflows groups

/-- A row of 7000 bytes. -/
def longRow : String := String.mk (List.replicate 7000 'a')

end atmos

namespace atmos

open ndn

/-- Reference text of one predicate: the autocomplete form for the key `?`, an
equality otherwise. -/
def sqlPredicate (k v : String) : String :=
  if k = "?" then " name REGEXP \x27^" ++ v ++ "\x27" else " " ++ k ++ "=\x27" ++ v ++ "\x27"

/-- Reference text of the predicates of the members in iteration order: the
first one is introduced by ` WHERE`, the later ones by ` AND`. -/
def sqlPredicates : Bool → List (String × String) → String
  | _, [] => ""
  | first, (k, v) :: rest =>
    (if first then " WHERE" else " AND") ++ sqlPredicate k v ++ sqlPredicates false rest

/-- Reference definition of the SQL text for a query object with the given
members. -/
def referenceSql (members : List (String × String)) : String :=
  "SELECT name FROM cmip5" ++ sqlPredicates true members ++
    (if members.isEmpty then " limit 0" else "") ++ ";"

/-- Reference definition of the autocomplete flag: some key is `?`. -/
def referenceAutocomplete (members : List (String × String)) : Bool :=
  members.any (fun m => m.1 == "?")

/-- The JSON object whose members, in iteration order, are the given keys with
string values. -/
def queryObject (members : List (String × String)) : Json.Value :=
  Json.Value.object (members.map (fun m => (m.1, Json.Value.string m.2)))

end atmos

namespace atmos

open ndn

/-- The query Interest `/catalog/lap/query/{"?":"ap"}`. -/
def exampleInterest : Interest :=
  { name := examplePrefix ++ [Component.mk "query", Component.mk "\x7b\"?\":\"ap\"\x7d"] }

/-- The adapter after `exampleInterest` was handled with the rows `apple` and
`apricot` in the data base. -/
def exampleAnswered : QueryAdapter :=
  (onQueryInterest (exampleEnv (some ["apple", "apricot"])) (Name.append examplePrefix "query")
    exampleInterest exampleAdapter).1

/-- The query Interest of the consumer tool, whose last component is not
JSON. -/
def consumerInterest : Interest :=
  { name := examplePrefix ++
      [Component.mk "query", Component.mk "\x7b\n\"activity\": \n\x7d"] }

end atmos

/-! ## Configuration -/

namespace atmos

open ndn

/-- Modelled from the spec: `util::ConfigSection` of `util/config-file.hpp`,
which is not among the sources: a property tree, that is a node with a string
value and an ordered list of named child nodes. -/
inductive ConfigSection where
  | node (value : String) (children : List (String × ConfigSection))

/-- The call `get_value<std::string>()` on a node. -/
def ConfigSection.value : ConfigSection → String
  | .node v _ => v

/-- The items that `begin()` to `end()` visit: key (`first`) and subtree
(`second`). -/
def ConfigSection.children : ConfigSection → List (String × ConfigSection)
  | .node _ cs => cs

/-- The local strings of `onConfig`; all start empty. -/
structure ConfigLocals where
  signingId : String := ""
  dbServer : String := ""
  dbName : String := ""
  dbUser : String := ""
  dbPasswd : String := ""
deriving DecidableEq, Repr

/-- The body of the inner loop of `onConfig` for one item of the `database`
subsection: four tests in sequence, each assigning its string and throwing when
it is empty. -/
def onConfigDatabaseItem (subItem : String × ConfigSection) (l : ConfigLocals) :
    Except String ConfigLocals := do
  let l ←
    if subItem.1 = "dbServer" then
      if subItem.2.value = "" then
        throw "Invalid value for \"dbServer\" in \"query\" section"
      else pure { l with dbServer := subItem.2.value }
    else pure l
  let l ←
    if subItem.1 = "dbName" then
      if subItem.2.value = "" then
        throw "Invalid value for \"dbName\" in \"query\" section"
      else pure { l with dbName := subItem.2.value }
    else pure l
  let l ←
    if subItem.1 = "dbUser" then
      if subItem.2.value = "" then
        throw "Invalid value for \"dbUser\" in \"query\" section"
      else pure { l with dbUser := subItem.2.value }
    else pure l
  if subItem.1 = "dbPasswd" then
    if subItem.2.value = "" then
      throw "Invalid value for \"dbPasswd\" in \"query\" section"
    else pure { l with dbPasswd := subItem.2.value }
  else pure l

/-- The inner loop of `onConfig` over the items of the `database`
subsection. -/
def onConfigDatabase : List (String × ConfigSection) → ConfigLocals →
    Except String ConfigLocals
  | [], l => pure l
  | subItem :: rest, l => do
    let l ← onConfigDatabaseItem subItem l
    onConfigDatabase rest l

/-- The body of the outer loop of `onConfig` for one item of the section. -/
def onConfigItem (item : String × ConfigSection) (l : ConfigLocals) :
    Except String ConfigLocals := do
  let l ←
    if item.1 = "signingId" then
      if item.2.value = "" then
        throw "Empty value for \"signingId\" in \"query\" section"
      else pure { l with signingId := item.2.value }
    else pure l
  if item.1 = "database" then onConfigDatabase item.2.children l
  else pure l

/-- The outer loop of `onConfig` over the items of the section. -/
def onConfigItems : List (String × ConfigSection) → ConfigLocals →
    Except String ConfigLocals
  | [], l => pure l
  | item :: rest, l => do
    let l ← onConfigItem item l
    onConfigItems rest l

/-- Method `QueryAdapter<MYSQL>::setDatabaseHandler`. -/
def setDatabaseHandler (databaseId : ConnectionDetails) (s : QueryAdapter) : QueryAdapter :=
  { s with m_databaseHandler := some databaseId }

/-- The assignment `m_registeredPrefixList[key] = ...` as it changes the keys of
the map: a key that is present stays where it is, a new key is added. -/
def registerPrefix (key : Name) (keys : List Name) : List Name :=
  if key ∈ keys then keys else keys ++ [key]

/-- Method `setFilters`: one interest filter for `m_prefix/query`, then one for
`m_prefix/query-results`, each assigned into `m_registeredPrefixList` under its
prefix. -/
def setFilters (s : QueryAdapter) : QueryAdapter :=
  let queryPrefix := Name.append s.m_prefix "query"
  let resultPrefix := Name.append s.m_prefix "query-results"
  { s with
    m_registeredPrefixList :=
      registerPrefix resultPrefix (registerPrefix queryPrefix s.m_registeredPrefixList) }

/-- Method `onConfig`.  `nameFromUri` is the constructor `ndn::Name(uri)`, the
file name is not used; the result is the adapter when the call ends and, when
it ends by a thrown `Error`, the message of that error. -/
def onConfig (nameFromUri : String → Name) (configSection : ConfigSection) (isDryRun : Bool)
    (_filename : String) (pfx : Name) (s : QueryAdapter) : QueryAdapter × Option String :=
  if isDryRun then (s, none)
  else
    match onConfigItems configSection.children {} with
    | Except.error e => (s, some e)
    | Except.ok l =>
      let s := { s with m_prefix := pfx, m_signingId := nameFromUri l.signingId }
      let mysqlId : ConnectionDetails :=
        { server := l.dbServer, user := l.dbUser, password := l.dbPasswd,
          database := l.dbName }
      (setFilters (setDatabaseHandler mysqlId s), none)

/-- An adapter as its constructor leaves it: no prefix, no signing identity,
nothing registered, cached or sent. -/
def QueryAdapter.constructed : QueryAdapter :=
  { m_prefix := [], m_signingId := [], m_activeQueryToFirstResponse := [],
    m_cache := [], facePut := [], sqlExecuted := [] }

/-- Some required field of a `queryAdapter` section is present with an empty
value: an item `signingId`, or an item `dbServer`, `dbName`, `dbUser` or
`dbPasswd` of an item `database`. -/
def EmptyRequiredField (configSection : ConfigSection) : Prop :=
  (∃ item ∈ configSection.children, item.1 = "signingId" ∧ item.2.value = "") ∨
  (∃ item ∈ configSection.children, item.1 = "database" ∧
    ∃ subItem ∈ item.2.children,
      (subItem.1 = "dbServer" ∨ subItem.1 = "dbName" ∨ subItem.1 = "dbUser" ∨
        subItem.1 = "dbPasswd") ∧ subItem.2.value = "")

/-- The non-empty pieces between the slashes of a URI; `cur` holds the piece
being read. -/
def uriPieces : List Char → List Char → List String
  | [], cur => if cur = [] then [] else [String.mk cur]
  | c :: cs, cur =>
    if c = '/' then
      if cur = [] then uriPieces cs [] else String.mk cur :: uriPieces cs []
    else uriPieces cs (cur ++ [c])

/-- A name from its URI, for examples: one component for each non-empty piece
between slashes. -/
def exampleNameFromUri (uri : String) : Name :=
  (uriPieces uri.data []).map Component.mk

/-- A section with the four data base fields and no `signingId`. -/
def noSigningIdSection : ConfigSection :=
  ConfigSection.node ""
    [("database", ConfigSection.node ""
        [("dbServer", ConfigSection.node "localhost" []),
         ("dbName", ConfigSection.node "testdb" []),
         ("dbUser", ConfigSection.node "atmos" []),
         ("dbPasswd", ConfigSection.node "secret" [])])]

/-- A section with every field, the password empty. -/
def emptyPasswordSection : ConfigSection :=
  ConfigSection.node ""
    [("signingId", ConfigSection.node "/ndn/atmos" []),
     ("database", ConfigSection.node ""
        [("dbServer", ConfigSection.node "localhost" []),
         ("dbName", ConfigSection.node "testdb" []),
         ("dbUser", ConfigSection.node "atmos" []),
         ("dbPasswd", ConfigSection.node "" [])])]

end atmos

namespace atmos

open ndn

/-- The largest `strlen + 1` among the rows (0 when there is no row). -/
def longestRowBytes (rows : List String) : Nat :=
  (rows.map (fun r => strlen r + 1)).foldr max 0

end atmos

namespace atmos

open ndn

/-- The retrieval Interest for segment `n` of the run that answered
`exampleInterest` (the clock read 7). -/
def exampleSegmentInterest (n : Nat) : Interest :=
  { name := examplePrefix ++
      [Component.mk "query-results",
       (exampleEnv none).fromVersion 7, (exampleEnv none).fromSegment n] }

end atmos

namespace atmos

open ndn

end atmos

namespace atmos

open ndn

/-- The content of a segment whose member `results` (`next` for autocomplete)
has the JSON value `value`: the text that `FastWriter` writes for the one-member
object, which ends in a line feed, and the NUL byte that `makeReplyData` counts
in. -/
def segmentText (isAutocomplete : Bool) (value : Json.Value) : String :=
  "\x7b\"" ++ (if isAutocomplete then "next" else "results") ++ "\":" ++
    Json.writeValue value ++ "\x7d\n\x00"

/-- The Data `d` carries exactly the names `names`, in this order: its content is
the text of the one-member object around the JSON array of these names.  For no
name at all the member may also be null. -/
def Carries (isAutocomplete : Bool) (d : Data) (names : List String) : Prop :=
  d.content = segmentText isAutocomplete (Json.Value.array (names.map Json.Value.string)) ∨
  (names = [] ∧ d.content = segmentText isAutocomplete Json.Value.null)

/-- A row with a NUL byte in the middle. -/
def nulRow : String := String.mk ['a', Char.ofNat 0, 'b']

end atmos

/-! ## Lemmas -/

namespace atmos

open ndn

theorem payloadBytes_append (xs ys : List String) :
    payloadBytes (xs ++ ys) = payloadBytes xs + payloadBytes ys := by
  simp [payloadBytes]

theorem payloadBytes_singleton (r : String) : payloadBytes [r] = strlen r + 1 := by
  simp [payloadBytes]

theorem registerPrefix_mem (key x : Name) (keys : List Name) :
    x ∈ registerPrefix key keys ↔ x = key ∨ x ∈ keys := by
  unfold registerPrefix
  split_ifs with h
  · constructor
    · exact Or.inr
    · rintro (rfl | hx)
      · exact h
      · exact hx
  · simp [or_comm]

theorem byteLength_append (a b : String) :
    byteLength (a ++ b) = byteLength a + byteLength b := by
  obtain ⟨a⟩ := a
  obtain ⟨b⟩ := b
  show String.utf8Len (a ++ b) = String.utf8Len a + String.utf8Len b
  exact String.utf8Len_append a b

theorem takeWhile_eq_self_of_not_mem (cs : List Char) (h : Char.ofNat 0 ∉ cs) :
    cs.takeWhile (fun c => c != Char.ofNat 0) = cs := by
  induction cs with
  | nil => rfl
  | cons c cs ih =>
    have hc : c ≠ Char.ofNat 0 := fun e => h (by simp [e])
    have ht : Char.ofNat 0 ∉ cs := fun e => h (List.mem_cons_of_mem _ e)
    have hb : (c != Char.ofNat 0) = true := by simpa using hc
    rw [List.takeWhile_cons, hb]
    simp [ih ht]

/-- A row without NUL byte is the C string it denotes. -/
theorem cstr_eq_self (r : String) (h : Char.ofNat 0 ∉ r.data) : cstr r = r := by
  cases r with
  | mk cs => simp only [cstr]; rw [takeWhile_eq_self_of_not_mem cs h]

theorem cstr_cstr (r : String) : cstr (cstr r) = cstr r := by
  apply cstr_eq_self
  intro h
  have := List.mem_takeWhile_imp h
  simp at this

theorem strlen_cstr (r : String) : strlen (cstr r) = strlen r := by
  simp [strlen, cstr_cstr]

theorem foldl_append_array (cs : List String) (xs : List Json.Value) :
    cs.foldl (fun v r => v.append (Json.Value.string (cstr r))) (Json.Value.array xs) =
      Json.Value.array (xs ++ cs.map (fun r => Json.Value.string (cstr r))) := by
  induction cs generalizing xs with
  | nil => simp
  | cons c cs ih =>
    show cs.foldl (fun v r => v.append (Json.Value.string (cstr r)))
      (Json.Value.array (xs ++ [Json.Value.string (cstr c)])) = _
    rw [ih]; simp

theorem bufferValue_nil : bufferValue [] = Json.Value.null := rfl

theorem bufferValue_cons (c : String) (cs : List String) :
    bufferValue (c :: cs) =
      Json.Value.array (((c :: cs).map cstr).map Json.Value.string) := by
  show cs.foldl (fun v r => v.append (Json.Value.string (cstr r)))
    (Json.Value.array [Json.Value.string (cstr c)]) = _
  rw [foldl_append_array]; simp

theorem bufferValue_snoc (cur : List String) (r : String) :
    bufferValue (cur ++ [r]) = (bufferValue cur).append (Json.Value.string (cstr r)) := by
  simp [bufferValue, List.foldl_append]

theorem bufferValue_clear_append (cur : List String) (r : String) :
    (bufferValue cur).clear.append (Json.Value.string (cstr r)) = bufferValue [r] := by
  cases cur with
  | nil => rfl
  | cons c cs => rw [bufferValue_cons]; rfl

theorem bufferValue_elements (cur : List String) :
    (bufferValue cur).elements = (cur.map cstr).map Json.Value.string := by
  cases cur with
  | nil => rfl
  | cons c cs => rw [bufferValue_cons]; rfl

theorem makeReplyData_signingId (env : Env) (s t : QueryAdapter)
    (h : t.m_signingId = s.m_signingId) (segmentPrefix : Name) (value : Json.Value)
    (segmentNo : Nat) (isFinalBlock isAutocomplete : Bool) :
    makeReplyData env t segmentPrefix value segmentNo isFinalBlock isAutocomplete =
      makeReplyData env s segmentPrefix value segmentNo isFinalBlock isAutocomplete := by
  simp [makeReplyData, signData, h]

/-- The loop of `prepareSegments`, started with the rows `cur` in the buffer:
it leaves the last group of `splitRows` in the buffer and has inserted one
non-final segment for each earlier group; nothing else of the adapter
changes. -/
theorem prepareSegmentsLoop_eq (env : Env) (segmentPrefix : Name) (autocomplete : Bool) :
    ∀ (rows cur : List String) (n : Nat) (s : QueryAdapter),
      prepareSegmentsLoop env segmentPrefix autocomplete rows
          { usedBytes := payloadBytes cur, segmentNo := n, array := bufferValue cur } s =
        ({ usedBytes := payloadBytes (splitRows rows cur).2
           segmentNo := n + (splitRows rows cur).1.length
           array := bufferValue (splitRows rows cur).2 },
         { s with
           m_cache := s.m_cache ++
             nonFinalSegments env s segmentPrefix autocomplete n
               ((splitRows rows cur).1.map bufferValue) }) := by
  intro rows
  induction rows with
  | nil => intro cur n s; simp [prepareSegmentsLoop, splitRows, nonFinalSegments]
  | cons r rest ih =>
    intro cur n s
    by_cases h : payloadBytes cur + (strlen r + 1) > PAYLOAD_LIMIT
    · have hb := ih [r] (n + 1)
        { s with m_cache := s.m_cache ++
            [makeReplyData env s segmentPrefix (bufferValue cur) n false autocomplete] }
      rw [payloadBytes_singleton] at hb
      simp only [prepareSegmentsLoop, splitRows, h, if_true, bufferValue_clear_append,
        Nat.zero_add, hb]
      have hs : ∀ (k : Nat) (vs : List Json.Value),
          nonFinalSegments env
            { s with m_cache := s.m_cache ++
              [makeReplyData env s segmentPrefix (bufferValue cur) n false autocomplete] }
            segmentPrefix autocomplete k vs =
          nonFinalSegments env s segmentPrefix autocomplete k vs := by
        intro k vs
        induction vs generalizing k with
        | nil => rfl
        | cons v vs ihv =>
          simp only [nonFinalSegments, ihv]
          simp [makeReplyData, signData]
      simp [hs, nonFinalSegments, Nat.add_assoc, Nat.add_comm 1]
    · have hb := ih (cur ++ [r]) n s
      rw [payloadBytes_append, payloadBytes_singleton, bufferValue_snoc] at hb
      simp only [prepareSegmentsLoop, splitRows, h, if_false, hb]

end atmos

namespace atmos

open ndn

/-- A run of `prepareSegments` on a result set: the SQL string is logged, the
segments of the groups of `splitRows` are inserted, nothing else changes. -/
theorem prepareSegments_eq (env : Env) (segmentPrefix : Name) (sqlString : String)
    (autocomplete : Bool) (s : QueryAdapter) (rows : List String)
    (h : env.performQuery sqlString = some rows) :
    prepareSegments env segmentPrefix sqlString autocomplete s =
      { s with
        sqlExecuted := s.sqlExecuted ++ [sqlString]
        m_cache := s.m_cache ++
          runSegments env s segmentPrefix autocomplete
            ((splitRows rows []).1.map bufferValue) (bufferValue (splitRows rows []).2) } := by
  have hl := prepareSegmentsLoop_eq env segmentPrefix autocomplete rows [] 0
    { s with sqlExecuted := s.sqlExecuted ++ [sqlString] }
  have hp : payloadBytes [] = 0 := rfl
  rw [hp, bufferValue_nil] at hl
  have hs : ∀ (k : Nat) (vs : List Json.Value),
      nonFinalSegments env { s with sqlExecuted := s.sqlExecuted ++ [sqlString] }
        segmentPrefix autocomplete k vs =
      nonFinalSegments env s segmentPrefix autocomplete k vs := by
    intro k vs
    induction vs generalizing k with
    | nil => rfl
    | cons v vs ihv =>
      simp only [nonFinalSegments, ihv]
      simp [makeReplyData, signData]
  simp only [prepareSegments, h, hl, hs, runSegments]
  simp [makeReplyData, signData]

theorem splitRows_flatten : ∀ (rows cur : List String),
    (splitRows rows cur).1.flatten ++ (splitRows rows cur).2 = cur ++ rows := by
  intro rows
  induction rows with
  | nil => intro cur; simp [splitRows]
  | cons r rest ih =>
    intro cur
    by_cases h : payloadBytes cur + (strlen r + 1) > PAYLOAD_LIMIT
    · simp [splitRows, h, ih [r]]
    · simp [splitRows, h, ih (cur ++ [r])]

end atmos

namespace atmos

open ndn

/-- The groups of `splitRows`, the last one included. -/
theorem splitRows_head : ∀ (rows cur : List String),
    ∃ t, ((splitRows rows cur).1 ++ [(splitRows rows cur).2]).head? = some (cur ++ t) := by
  intro rows
  induction rows with
  | nil => intro cur; exact ⟨[], by simp [splitRows]⟩
  | cons r rest ih =>
    intro cur
    by_cases h : payloadBytes cur + (strlen r + 1) > PAYLOAD_LIMIT
    · exact ⟨[], by simp [splitRows, h]⟩
    · obtain ⟨t, ht⟩ := ih (cur ++ [r])
      exact ⟨r :: t, by simpa [splitRows, h] using ht⟩

theorem splitRows_fit : ∀ (rows cur : List String),
    payloadBytes cur ≤ PAYLOAD_LIMIT → (∀ r ∈ rows, strlen r + 1 ≤ PAYLOAD_LIMIT) →
    ∀ g ∈ (splitRows rows cur).1 ++ [(splitRows rows cur).2], payloadBytes g ≤ PAYLOAD_LIMIT := by
  intro rows
  induction rows with
  | nil => intro cur hc _ g hg; simp [splitRows] at hg; simpa [hg] using hc
  | cons r rest ih =>
    intro cur hc hr g hg
    have hr1 : strlen r + 1 ≤ PAYLOAD_LIMIT := hr r (List.mem_cons_self _ _)
    have hr2 : ∀ x ∈ rest, strlen x + 1 ≤ PAYLOAD_LIMIT :=
      fun x hx => hr x (List.mem_cons_of_mem _ hx)
    by_cases h : payloadBytes cur + (strlen r + 1) > PAYLOAD_LIMIT
    · simp only [splitRows, h, if_true, List.cons_append, List.mem_cons] at hg
      rcases hg with hg | hg
      · simpa [hg] using hc
      · exact ih [r] (by simpa [payloadBytes_singleton] using hr1) hr2 g hg
    · simp only [splitRows, h, if_false] at hg
      refine ih (cur ++ [r]) ?_ hr2 g hg
      rw [payloadBytes_append, payloadBytes_singleton]
      omega

theorem splitRows_chain : ∀ (rows cur : List String),
    List.Chain' NextRowOverflows ((splitRows rows cur).1 ++ [(splitRows rows cur).2]) := by
  intro rows
  induction rows with
  | nil => intro cur; simp [splitRows]
  | cons r rest ih =>
    intro cur
    by_cases h : payloadBytes cur + (strlen r + 1) > PAYLOAD_LIMIT
    · simp only [splitRows, h, if_true, List.cons_append]
      rw [List.chain'_cons']
      refine ⟨?_, ih [r]⟩
      intro y hy
      obtain ⟨t, ht⟩ := splitRows_head rest [r]
      rw [ht] at hy
      simp at hy
      exact ⟨r, t, by simp [← hy], h⟩
    · simp only [splitRows, h, if_false]
      exact ih (cur ++ [r])

end atmos

namespace atmos

open ndn

theorem payloadBytes_replicate (r : String) (k : Nat) :
    payloadBytes (List.replicate k r) = k * (strlen r + 1) := by
  simp [payloadBytes]

theorem splitRows_fill (r : String) : ∀ (m n k : Nat),
    (k + m) * (strlen r + 1) ≤ PAYLOAD_LIMIT →
    splitRows (List.replicate (m + n) r) (List.replicate k r) =
      splitRows (List.replicate n r) (List.replicate (k + m) r) := by
  intro m
  induction m with
  | zero => intro n k _; simp
  | succ m ih =>
    intro n k hk
    have e1 : m + 1 + n = (m + n) + 1 := by omega
    have hle : (k + 1) * (strlen r + 1) ≤ (k + (m + 1)) * (strlen r + 1) :=
      Nat.mul_le_mul_right _ (by omega)
    have hno : ¬ payloadBytes (List.replicate k r) + (strlen r + 1) > PAYLOAD_LIMIT := by
      rw [payloadBytes_replicate]
      have : k * (strlen r + 1) + (strlen r + 1) = (k + 1) * (strlen r + 1) := by ring
      omega
    rw [e1, List.replicate_succ]
    simp only [splitRows, hno, if_false]
    have e2 : List.replicate k r ++ [r] = List.replicate (k + 1) r := by
      rw [List.replicate_succ']
    rw [e2, ih n (k + 1) (by rw [show k + 1 + m = k + (m + 1) by omega]; exact hk)]
    rw [show k + 1 + m = k + (m + 1) by omega]

theorem splitRows_flush (r : String) (n k : Nat)
    (hk : PAYLOAD_LIMIT < (k + 1) * (strlen r + 1)) :
    splitRows (List.replicate (n + 1) r) (List.replicate k r) =
      (List.replicate k r :: (splitRows (List.replicate n r) [r]).1,
       (splitRows (List.replicate n r) [r]).2) := by
  have hyes : payloadBytes (List.replicate k r) + (strlen r + 1) > PAYLOAD_LIMIT := by
    rw [payloadBytes_replicate]
    have : k * (strlen r + 1) + (strlen r + 1) = (k + 1) * (strlen r + 1) := by ring
    omega
  rw [List.replicate_succ]
  simp only [splitRows, hyes, if_true]

/-- For 3000 rows of five bytes each: two groups of 1166 rows are flushed inside
the loop, 668 rows are left for the final segment. -/
theorem splitRows_replicate_3000 (r : String) (h : strlen r = 5) :
    splitRows (List.replicate 3000 r) [] =
      ([List.replicate 1166 r, List.replicate 1166 r], List.replicate 668 r) := by
  have f1 : splitRows (List.replicate 3000 r) [] =
      splitRows (List.replicate 1834 r) (List.replicate 1166 r) :=
    splitRows_fill r 1166 1834 0 (by rw [h]; decide)
  have g1 : splitRows (List.replicate 1834 r) (List.replicate 1166 r) =
      (List.replicate 1166 r :: (splitRows (List.replicate 1833 r) [r]).1,
       (splitRows (List.replicate 1833 r) [r]).2) :=
    splitRows_flush r 1833 1166 (by rw [h]; decide)
  have f2 : splitRows (List.replicate 1833 r) [r] =
      splitRows (List.replicate 668 r) (List.replicate 1166 r) :=
    splitRows_fill r 1165 668 1 (by rw [h]; decide)
  have g2 : splitRows (List.replicate 668 r) (List.replicate 1166 r) =
      (List.replicate 1166 r :: (splitRows (List.replicate 667 r) [r]).1,
       (splitRows (List.replicate 667 r) [r]).2) :=
    splitRows_flush r 667 1166 (by rw [h]; decide)
  have f3 : splitRows (List.replicate 667 r) [r] =
      splitRows [] (List.replicate 668 r) :=
    splitRows_fill r 667 0 1 (by rw [h]; decide)
  rw [f1, g1, f2, g2, f3]
  rfl

theorem strlen_replicate (n : Nat) : strlen (String.mk (List.replicate n 'a')) = n := by
  induction n with
  | zero => rfl
  | succ n ih =>
    have : strlen (String.mk (List.replicate (n + 1) 'a')) =
        strlen (String.mk (List.replicate n 'a')) + 1 := rfl
    rw [this, ih]

end atmos

/-! ## The claims -/

namespace atmos

open ndn

theorem intercalate_go_append (s : String) : ∀ (l : List String) (x acc : String),
    String.intercalate.go (x ++ acc) s l = x ++ String.intercalate.go acc s l := by
  intro l
  induction l with
  | nil => intro x acc; rfl
  | cons a l ih =>
    intro x acc
    simp only [String.intercalate.go]
    rw [String.append_assoc, String.append_assoc, ih, String.append_assoc]

theorem intercalate_cons_cons (s a b : String) (rest : List String) :
    s.intercalate (a :: b :: rest) = a ++ s ++ s.intercalate (b :: rest) := by
  simp only [String.intercalate, String.intercalate.go]
  rw [String.append_assoc, String.append_assoc a, intercalate_go_append, intercalate_go_append]

theorem writeElements_strings (names : List String) :
    Json.writeElements (names.map Json.Value.string) =
      ",".intercalate (names.map Json.valueToQuotedString) := by
  induction names with
  | nil => rfl
  | cons x t ih =>
    cases t with
    | nil => simp [Json.writeElements, Json.writeValue, String.intercalate, String.intercalate.go]
    | cons y rest =>
      simp only [List.map_cons] at ih ⊢
      rw [Json.writeElements, ih, intercalate_cons_cons, Json.writeValue]

theorem nonFinalSegments_length (env : Env) (s : QueryAdapter) (segmentPrefix : Name)
    (autocomplete : Bool) : ∀ (vs : List Json.Value) (n : Nat),
    (nonFinalSegments env s segmentPrefix autocomplete n vs).length = vs.length := by
  intro vs
  induction vs with
  | nil => intro n; rfl
  | cons v vs ih => intro n; simp [nonFinalSegments, ih]

theorem nonFinalSegments_finalBlockId (env : Env) (s : QueryAdapter) (segmentPrefix : Name)
    (autocomplete : Bool) : ∀ (vs : List Json.Value) (n : Nat),
    ∀ d ∈ nonFinalSegments env s segmentPrefix autocomplete n vs, d.finalBlockId = none := by
  intro vs
  induction vs with
  | nil => intro n d hd; simp [nonFinalSegments] at hd
  | cons v vs ih =>
    intro n d hd
    simp only [nonFinalSegments, List.mem_cons] at hd
    rcases hd with hd | hd
    · rw [hd]; simp [makeReplyData, signData]
    · exact ih (n + 1) d hd

theorem nonFinalSegments_names (env : Env) (s : QueryAdapter) (segmentPrefix : Name)
    (autocomplete : Bool) : ∀ (vs : List Json.Value) (n : Nat),
    (nonFinalSegments env s segmentPrefix autocomplete n vs).map Data.name =
      (List.range' n vs.length).map (fun i => segmentPrefix ++ [env.fromSegment i]) := by
  intro vs
  induction vs with
  | nil => intro n; rfl
  | cons v vs ih =>
    intro n
    simp only [nonFinalSegments, List.map_cons, List.length_cons, List.range'_succ, ih]
    simp [makeReplyData, signData]

theorem runSegments_names (env : Env) (s : QueryAdapter) (segmentPrefix : Name)
    (autocomplete : Bool) (init : List Json.Value) (last : Json.Value) :
    (runSegments env s segmentPrefix autocomplete init last).map Data.name =
      (List.range (init.length + 1)).map (fun i => segmentPrefix ++ [env.fromSegment i]) := by
  simp only [runSegments, List.map_append, nonFinalSegments_names, List.map_cons, List.map_nil,
    List.range_succ, List.range_eq_range']
  simp [makeReplyData, signData]

/-- C3: among the segments that one run of `prepareSegments` inserts exactly
one has FinalBlockId set; it is the last one inserted, and its FinalBlockId is
the segment component that ends its own name. -/
theorem prepareSegments_one_final_block (env : Env) (segmentPrefix : Name)
    (sqlString : String) (autocomplete : Bool) (s : QueryAdapter) (rows : List String)
    (h : env.performQuery sqlString = some rows) :
    ∃ (segs : List Data) (last : Data),
      (prepareSegments env segmentPrefix sqlString autocomplete s).m_cache =
        s.m_cache ++ segs ++ [last] ∧
      (∀ d ∈ segs, d.finalBlockId = none) ∧
      last.finalBlockId = some (env.fromSegment segs.length) ∧
      last.name.getLast? = last.finalBlockId := by
  refine ⟨nonFinalSegments env s segmentPrefix autocomplete 0
      ((splitRows rows []).1.map bufferValue),
    makeReplyData env s segmentPrefix (bufferValue (splitRows rows []).2)
      ((splitRows rows []).1.map bufferValue).length true autocomplete, ?_, ?_, ?_, ?_⟩
  · rw [prepareSegments_eq env segmentPrefix sqlString autocomplete s rows h]
    simp [runSegments]
  · exact nonFinalSegments_finalBlockId env s segmentPrefix autocomplete _ 0
  · rw [nonFinalSegments_length]
    simp [makeReplyData, signData]
  · simp [makeReplyData, signData]

/-- Witness of C3: rows `a`, `bb`. -/
theorem prepareSegments_one_final_block_witness :
    (exampleEnv (some ["a", "bb"])).performQuery "q" = some ["a", "bb"] ∧
    ∃ (segs : List Data) (last : Data),
      (prepareSegments (exampleEnv (some ["a", "bb"])) examplePrefix "q" false
          exampleAdapter).m_cache =
        exampleAdapter.m_cache ++ segs ++ [last] ∧
      (∀ d ∈ segs, d.finalBlockId = none) ∧
      last.finalBlockId = some ((exampleEnv (some ["a", "bb"])).fromSegment segs.length) ∧
      last.name.getLast? = last.finalBlockId :=
  ⟨rfl, prepareSegments_one_final_block (exampleEnv (some ["a", "bb"])) examplePrefix "q"
    false exampleAdapter ["a", "bb"] rfl⟩

/-- C4: the segments that one run of `prepareSegments` inserts are named, in
insertion order, `segmentPrefix/seg(0)`, `segmentPrefix/seg(1)`, ...: the
segment numbers start at 0 and go up by one, and every segment carries the same
prefix. -/
theorem prepareSegments_names (env : Env) (segmentPrefix : Name)
    (sqlString : String) (autocomplete : Bool) (s : QueryAdapter) (rows : List String)
    (h : env.performQuery sqlString = some rows) :
    ∃ (inserted : List Data),
      (prepareSegments env segmentPrefix sqlString autocomplete s).m_cache =
        s.m_cache ++ inserted ∧
      inserted ≠ [] ∧
      inserted.map Data.name =
        (List.range inserted.length).map (fun i => segmentPrefix ++ [env.fromSegment i]) := by
  refine ⟨runSegments env s segmentPrefix autocomplete
      ((splitRows rows []).1.map bufferValue) (bufferValue (splitRows rows []).2), ?_, ?_, ?_⟩
  · rw [prepareSegments_eq env segmentPrefix sqlString autocomplete s rows h]
  · simp [runSegments]
  · rw [runSegments_names]
    simp [runSegments, nonFinalSegments_length]

/-- Witness of C4: rows `a`, `bb`. -/
theorem prepareSegments_names_witness :
    (exampleEnv (some ["a", "bb"])).performQuery "q" = some ["a", "bb"] ∧
    ∃ (inserted : List Data),
      (prepareSegments (exampleEnv (some ["a", "bb"])) examplePrefix "q" false
          exampleAdapter).m_cache =
        exampleAdapter.m_cache ++ inserted ∧
      inserted ≠ [] ∧
      inserted.map Data.name =
        (List.range inserted.length).map
          (fun i => examplePrefix ++ [(exampleEnv (some ["a", "bb"])).fromSegment i]) :=
  ⟨rfl, prepareSegments_names (exampleEnv (some ["a", "bb"])) examplePrefix "q"
    false exampleAdapter ["a", "bb"] rfl⟩

end atmos

namespace atmos

open ndn

theorem json2SqlLoop_strings : ∀ (members : List (String × String)) (sqlQuery : String)
    (input autocomplete : Bool),
    json2SqlLoop (members.map (fun m => (m.1, Json.Value.string m.2))) sqlQuery input
        autocomplete =
      some (sqlQuery ++ sqlPredicates (!input) members, input || !members.isEmpty,
        autocomplete || referenceAutocomplete members) := by
  intro members
  induction members with
  | nil => intro sqlQuery input autocomplete; simp [json2SqlLoop, sqlPredicates,
      referenceAutocomplete]
  | cons m rest ih =>
    intro sqlQuery input autocomplete
    obtain ⟨k, v⟩ := m
    by_cases hk : k = "?"
    · cases input <;>
        simp [json2SqlLoop, Json.Value.asString, hk, ih, sqlPredicates, sqlPredicate,
          referenceAutocomplete, String.append_assoc, -String.reduceAppend]
    · have hk2 : (k == "?") = false := by simp [hk]
      cases input <;>
        simp [json2SqlLoop, Json.Value.asString, hk, hk2, ih, sqlPredicates, sqlPredicate,
          referenceAutocomplete, String.append_assoc, -String.reduceAppend]

/-- C5: `json2Sql` equals the reference definition: for a query object with
members `(k_i, v_i)` in iteration order it writes `SELECT name FROM cmip5`, then
for each member ` WHERE` (first) or ` AND` (later) and ` name REGEXP '^v_i'` for
the key `?`, ` k_i='v_i'` otherwise, then ` limit 0` exactly when there is no
member, then `;`; the flag, false at the call, comes back true exactly when
some key is `?`.  The two sample queries give the texts of the scenarios. -/
theorem json2Sql_eq_reference :
    (∀ members : List (String × String),
      json2Sql "" (queryObject members) false =
        some (referenceSql members, referenceAutocomplete members)) ∧
    json2Sql "" (queryObject [("?", "ap")]) false =
      some ("SELECT name FROM cmip5 WHERE name REGEXP \x27^ap\x27;", true) ∧
    json2Sql "" (queryObject []) false = some ("SELECT name FROM cmip5 limit 0;", false) := by
  refine ⟨?_, by decide, by decide⟩
  intro members
  simp only [json2Sql, queryObject, Json.Value.entries, json2SqlLoop_strings]
  cases members with
  | nil => simp [referenceSql, sqlPredicates, referenceAutocomplete]
  | cons m rest => simp [referenceSql, String.append_assoc, -String.reduceAppend]

end atmos

namespace atmos

open ndn

/-- What `prepareSegments` leaves alone, and what it logs. -/
theorem prepareSegments_frame (env : Env) (segmentPrefix : Name) (sqlString : String)
    (autocomplete : Bool) (s : QueryAdapter) :
    QueryAdapter.m_prefix (prepareSegments env segmentPrefix sqlString autocomplete s) = s.m_prefix ∧
    (prepareSegments env segmentPrefix sqlString autocomplete s).m_signingId = s.m_signingId ∧
    (prepareSegments env segmentPrefix sqlString autocomplete s).m_activeQueryToFirstResponse =
      s.m_activeQueryToFirstResponse ∧
    (prepareSegments env segmentPrefix sqlString autocomplete s).facePut = s.facePut ∧
    (prepareSegments env segmentPrefix sqlString autocomplete s).sqlExecuted =
      s.sqlExecuted ++ [sqlString] := by
  cases h : env.performQuery sqlString with
  | none => simp [prepareSegments, h]
  | some rows => simp [prepareSegments_eq env segmentPrefix sqlString autocomplete s rows h]

theorem lookup_append_new {β : Type} (k : String) (v : β) : ∀ (l : List (String × β)),
    l.lookup k = none → (l ++ [(k, v)]).lookup k = some v := by
  intro l
  induction l with
  | nil => intro _; simp [List.lookup]
  | cons p l ih =>
    intro h
    obtain ⟨k2, v2⟩ := p
    by_cases hk : k = k2
    · subst hk
      simp [List.lookup] at h
    · have hb : (k == k2) = false := by simp [hk]
      simp only [List.lookup, hb, List.cons_append] at h ⊢
      exact ih h

theorem lookup_append_old {β : Type} (k : String) (v : β) (e : String × β) :
    ∀ (l : List (String × β)), l.lookup k = some v → (l ++ [e]).lookup k = some v := by
  intro l
  induction l with
  | nil => intro h; simp [List.lookup] at h
  | cons p l ih =>
    intro h
    obtain ⟨k2, v2⟩ := p
    by_cases hk : k = k2
    · subst hk
      simp [List.lookup] at h ⊢
      exact h
    · have hb : (k == k2) = false := by simp [hk]
      simp only [List.lookup, hb, List.cons_append] at h ⊢
      exact ih h

theorem byteLength_pos_of_ne_empty (j : String) (h : j ≠ "") : 0 < byteLength j := by
  obtain ⟨cs⟩ := j
  cases cs with
  | nil => exact absurd rfl h
  | cons c cs =>
    have hc := Char.utf8Size_pos c
    have : byteLength (String.mk (c :: cs)) = byteLength (String.mk cs) + c.utf8Size := rfl
    omega

/-- A duplicate: the stored ACK is put to the face and nothing else happens. -/
theorem runJsonQuery_replay (env : Env) (interest : Interest) (s : QueryAdapter)
    (jsonStr : Component) (ack : Data)
    (hname : interest.name[ s.m_prefix.length + 1]? = some jsonStr)
    (hlen : 0 < byteLength jsonStr.value)
    (hreg : s.m_activeQueryToFirstResponse.lookup jsonStr.value = some ack) :
    runJsonQuery env interest s = ({ s with facePut := s.facePut ++ [ack] }, none) := by
  simp [runJsonQuery, hname, Nat.not_le.mpr hlen, hreg]

/-- A fresh, parseable query: what the run leaves behind. -/
theorem runJsonQuery_fresh (env : Env) (interest : Interest) (s : QueryAdapter)
    (jsonStr : Component) (v : Json.Value)
    (hname : interest.name[ s.m_prefix.length + 1]? = some jsonStr)
    (hlen : 0 < byteLength jsonStr.value)
    (hreg : s.m_activeQueryToFirstResponse.lookup jsonStr.value = none)
    (hparse : env.parse jsonStr.value = some v) :
    QueryAdapter.m_prefix (runJsonQuery env interest s).1 = s.m_prefix ∧
    (runJsonQuery env interest s).1.m_signingId = s.m_signingId ∧
    (runJsonQuery env interest s).1.m_activeQueryToFirstResponse =
      s.m_activeQueryToFirstResponse ++
        [(jsonStr.value, makeAckData s interest (env.fromVersion env.now))] ∧
    (runJsonQuery env interest s).1.facePut =
      s.facePut ++ [makeAckData s interest (env.fromVersion env.now)] ∧
    ((runJsonQuery env interest s).1.sqlExecuted = s.sqlExecuted ∨
      ∃ sql, (runJsonQuery env interest s).1.sqlExecuted = s.sqlExecuted ++ [sql]) := by
  cases hj : json2Sql "" v false with
  | none => simp [runJsonQuery, hname, Nat.not_le.mpr hlen, hreg, hparse, hj]
  | some p =>
    obtain ⟨sql, ac⟩ := p
    simp only [runJsonQuery, hname, Nat.not_le.mpr hlen, hreg, hparse, hj, if_false]
    have hf := prepareSegments_frame env
      (Name.append s.m_prefix "query-results" ++ [env.fromVersion env.now]) sql ac
      { s with
        m_activeQueryToFirstResponse :=
          s.m_activeQueryToFirstResponse ++
            [(jsonStr.value, makeAckData s interest (env.fromVersion env.now))]
        facePut := s.facePut ++ [makeAckData s interest (env.fromVersion env.now)] }
    obtain ⟨h1, h2, h3, h4, h5⟩ := hf
    exact ⟨h1, h2, h3, h4, Or.inr ⟨sql, h5⟩⟩

/-- The outcomes of `runJsonQuery`: the adapter is unchanged, or a stored ACK
is replayed, or a fresh run starts. -/
theorem runJsonQuery_cases (env : Env) (interest : Interest) (s : QueryAdapter) :
    (runJsonQuery env interest s).1 = s ∨
    (∃ jsonStr ack, interest.name[ s.m_prefix.length + 1]? = some jsonStr ∧
      0 < byteLength jsonStr.value ∧
      s.m_activeQueryToFirstResponse.lookup jsonStr.value = some ack ∧
      runJsonQuery env interest s = ({ s with facePut := s.facePut ++ [ack] }, none)) ∨
    (∃ jsonStr v, interest.name[ s.m_prefix.length + 1]? = some jsonStr ∧
      0 < byteLength jsonStr.value ∧
      s.m_activeQueryToFirstResponse.lookup jsonStr.value = none ∧
      env.parse jsonStr.value = some v) := by
  cases hname : interest.name[ s.m_prefix.length + 1]? with
  | none => left; simp [runJsonQuery, hname]
  | some jsonStr =>
    by_cases hlen : 0 < byteLength jsonStr.value
    · cases hreg : s.m_activeQueryToFirstResponse.lookup jsonStr.value with
      | some ack =>
        right; left
        exact ⟨jsonStr, ack, rfl, hlen, hreg,
          runJsonQuery_replay env interest s jsonStr ack hname hlen hreg⟩
      | none =>
        cases hparse : env.parse jsonStr.value with
        | none => left; simp [runJsonQuery, hname, Nat.not_le.mpr hlen, hreg, hparse]
        | some v => right; right; exact ⟨jsonStr, v, rfl, hlen, hreg, hparse⟩
    · left; simp [runJsonQuery, hname, Nat.le_of_not_lt hlen]

end atmos

namespace atmos

open ndn

/-- C7: for a query Interest of arity `|P|+2` whose JSON component is non-empty,
parses, and is not yet in the map, `runJsonQuery` puts exactly one Data to the
face: the ACK, with empty content and the name of the Interest followed by the
version component and `OK`; afterwards the map holds that ACK under the JSON
string. -/
theorem runJsonQuery_ack (env : Env) (interest : Interest) (s : QueryAdapter)
    (q : Name) (jsonStr : Component) (v : Json.Value)
    (hq : q.length = s.m_prefix.length + 1)
    (hname : interest.name = q ++ [jsonStr])
    (hne : jsonStr.value ≠ "")
    (hparse : env.parse jsonStr.value = some v)
    (hfresh : s.m_activeQueryToFirstResponse.lookup jsonStr.value = none) :
    ∃ ack : Data,
      (runJsonQuery env interest s).1.facePut = s.facePut ++ [ack] ∧
      ack.content = "" ∧
      ack.name = interest.name ++ [env.fromVersion env.now, Component.mk "OK"] ∧
      (runJsonQuery env interest s).1.m_activeQueryToFirstResponse.lookup jsonStr.value =
        some ack := by
  have hidx : interest.name[ s.m_prefix.length + 1]? = some jsonStr := by
    rw [hname, ← hq]; simp
  obtain ⟨_, _, e3, e4, _⟩ := runJsonQuery_fresh env interest s jsonStr v hidx
    (byteLength_pos_of_ne_empty _ hne) hfresh hparse
  refine ⟨makeAckData s interest (env.fromVersion env.now), e4, ?_, ?_, ?_⟩
  · simp [makeAckData, signData]
  · simp [makeAckData, signData, Name.append]
  · rw [e3]; exact lookup_append_new _ _ _ hfresh

/-- Witness of C7: `exampleInterest` at the freshly configured adapter. -/
theorem runJsonQuery_ack_witness :
    ([Component.mk "catalog", Component.mk "lap", Component.mk "query"] : Name).length =
      exampleAdapter.m_prefix.length + 1 ∧
    ∃ ack : Data,
      (runJsonQuery (exampleEnv (some ["apple", "apricot"])) exampleInterest
          exampleAdapter).1.facePut = exampleAdapter.facePut ++ [ack] ∧
      ack.content = "" ∧
      ack.name = exampleInterest.name ++
        [(exampleEnv (some ["apple", "apricot"])).fromVersion
          (exampleEnv (some ["apple", "apricot"])).now, Component.mk "OK"] ∧
      (runJsonQuery (exampleEnv (some ["apple", "apricot"])) exampleInterest
          exampleAdapter).1.m_activeQueryToFirstResponse.lookup
            (Component.mk "\x7b\"?\":\"ap\"\x7d").value = some ack :=
  ⟨rfl, runJsonQuery_ack (exampleEnv (some ["apple", "apricot"])) exampleInterest exampleAdapter
    [Component.mk "catalog", Component.mk "lap", Component.mk "query"]
    (Component.mk "\x7b\"?\":\"ap\"\x7d")
    (Json.Value.object [("?", Json.Value.string "ap")]) rfl rfl (by decide) rfl rfl⟩

/-- C8: a query Interest whose JSON component is empty or does not parse, and
for which the map has no entry, leaves the adapter exactly as it was: no Data
is put, no entry is added, no SQL is executed, nothing is cached. -/
theorem runJsonQuery_malformed (env : Env) (interest : Interest) (s : QueryAdapter)
    (jsonStr : Component)
    (hname : interest.name[ s.m_prefix.length + 1]? = some jsonStr)
    (hbad : jsonStr.value = "" ∨ env.parse jsonStr.value = none)
    (hfresh : s.m_activeQueryToFirstResponse.lookup jsonStr.value = none) :
    runJsonQuery env interest s = (s, none) := by
  by_cases hlen : 0 < byteLength jsonStr.value
  · rcases hbad with hbad | hbad
    · rw [hbad] at hlen; exact absurd hlen (by decide)
    · simp [runJsonQuery, hname, Nat.not_le.mpr hlen, hfresh, hbad]
  · simp [runJsonQuery, hname, Nat.le_of_not_lt hlen]

/-- Witness of C8: the Interest of the consumer tool at the freshly configured
adapter. -/
theorem runJsonQuery_malformed_witness :
    (consumerInterest.name[ exampleAdapter.m_prefix.length + 1]? =
        some (Component.mk "\x7b\n\"activity\": \n\x7d") ∧
      ((Component.mk "\x7b\n\"activity\": \n\x7d").value = "" ∨
        (exampleEnv none).parse (Component.mk "\x7b\n\"activity\": \n\x7d").value = none) ∧
      exampleAdapter.m_activeQueryToFirstResponse.lookup
        (Component.mk "\x7b\n\"activity\": \n\x7d").value = none) ∧
    runJsonQuery (exampleEnv none) consumerInterest exampleAdapter = (exampleAdapter, none) :=
  ⟨⟨rfl, Or.inr rfl, rfl⟩,
    runJsonQuery_malformed (exampleEnv none) consumerInterest exampleAdapter
      (Component.mk "\x7b\n\"activity\": \n\x7d") rfl (Or.inr rfl) rfl⟩

end atmos

namespace atmos

open ndn

/-- The content that `makeReplyData` gives a segment: the one-member object as
`FastWriter` writes it, line feed included, and a NUL byte. -/
theorem makeReplyData_payload (env : Env) (s : QueryAdapter) (segmentPrefix : Name)
    (value : Json.Value) (segmentNo : Nat) (isFinalBlock isAutocomplete : Bool) :
    (makeReplyData env s segmentPrefix value segmentNo isFinalBlock isAutocomplete).content =
      "\x7b\"" ++ (if isAutocomplete then "next" else "results") ++ "\":" ++
        Json.writeValue value ++ "\x7d\n\x00" := by
  have h1 : Json.valueToQuotedString "next" = "\"next\"" := by decide
  have h2 : Json.valueToQuotedString "results" = "\"results\"" := by decide
  cases isAutocomplete <;>
    simp only [makeReplyData, signData, Json.FastWriter.write, Json.writeValue,
      Json.writeMembers, h1, h2, if_true, if_false] <;>
    apply String.ext <;>
    simp [String.data_append, h1, h2]

/-- C9 (as amended): when the row sequence is empty, `prepareSegments` inserts
exactly one segment; it is numbered 0, has FinalBlockId set to its own segment
component, and its content is the one-member object `results` (`next` when
autocomplete) around a value that holds no names (null or the empty array), as
`FastWriter` writes it (line feed included), followed by a NUL byte. -/
theorem prepareSegments_no_rows (env : Env) (segmentPrefix : Name) (sqlString : String)
    (autocomplete : Bool) (s : QueryAdapter)
    (h : env.performQuery sqlString = some []) :
    ∃ (seg : Data) (v : Json.Value),
      (prepareSegments env segmentPrefix sqlString autocomplete s).m_cache =
        s.m_cache ++ [seg] ∧
      seg.name = segmentPrefix ++ [env.fromSegment 0] ∧
      seg.finalBlockId = some (env.fromSegment 0) ∧
      (v = Json.Value.null ∨ v = Json.Value.array []) ∧
      seg.content =
        "\x7b\"" ++ (if autocomplete then "next" else "results") ++ "\":" ++
          Json.writeValue v ++ "\x7d\n\x00" := by
  refine ⟨makeReplyData env s segmentPrefix Json.Value.null 0 true autocomplete,
    Json.Value.null, ?_, ?_, ?_, Or.inl rfl, ?_⟩
  · rw [prepareSegments_eq env segmentPrefix sqlString autocomplete s [] h]
    rfl
  · simp [makeReplyData, signData]
  · simp [makeReplyData, signData]
  · exact makeReplyData_payload env s segmentPrefix Json.Value.null 0 true autocomplete

/-- Witness of C9: the data base answers with no row. -/
theorem prepareSegments_no_rows_witness :
    (exampleEnv (some [])).performQuery "SELECT name FROM cmip5 limit 0;" = some [] ∧
    ∃ (seg : Data) (v : Json.Value),
      (prepareSegments (exampleEnv (some [])) examplePrefix "SELECT name FROM cmip5 limit 0;"
          false exampleAdapter).m_cache = exampleAdapter.m_cache ++ [seg] ∧
      seg.name = examplePrefix ++ [(exampleEnv (some [])).fromSegment 0] ∧
      seg.finalBlockId = some ((exampleEnv (some [])).fromSegment 0) ∧
      (v = Json.Value.null ∨ v = Json.Value.array []) ∧
      seg.content =
        "\x7b\"" ++ (if false then "next" else "results") ++ "\":" ++
          Json.writeValue v ++ "\x7d\n\x00" :=
  ⟨rfl, prepareSegments_no_rows (exampleEnv (some [])) examplePrefix
    "SELECT name FROM cmip5 limit 0;" false exampleAdapter rfl⟩

/-- C9 as stated fails: for an empty row sequence the content of the one
segment is not `{"results":[]}` and a NUL byte; the buffer was never appended
to, so it is written as `null`, and the writer ends its text with a line
feed. -/
theorem empty_result_text_differs :
    (prepareSegments (exampleEnv (some [])) examplePrefix "SELECT name FROM cmip5 limit 0;"
        false exampleAdapter).m_cache.map Data.content =
      ["\x7b\"results\":null\x7d\n\x00"] ∧
    (prepareSegments (exampleEnv (some [])) examplePrefix "SELECT name FROM cmip5 limit 0;"
        false exampleAdapter).m_cache.map Data.content ≠
      ["\x7b\"results\":[]\x7d\x00"] := by
  decide

/-- C10 (as amended): for every array of names and every autocomplete flag the
content of the Data built by `makeReplyData` is the compact JSON text of the
object `{"next": names}` (flag true) or `{"results": names}` (flag false) as
`FastWriter` writes it, that is followed by a line feed, and then exactly one
NUL byte.  The rows of scenarios S1 and S2 give the texts shown. -/
theorem makeReplyData_content :
    (∀ (env : Env) (s : QueryAdapter) (segmentPrefix : Name) (names : List String)
        (segmentNo : Nat) (isFinalBlock isAutocomplete : Bool),
      (makeReplyData env s segmentPrefix (Json.Value.array (names.map Json.Value.string))
          segmentNo isFinalBlock isAutocomplete).content =
        "\x7b\"" ++ (if isAutocomplete then "next" else "results") ++ "\":[" ++
          ",".intercalate (names.map Json.valueToQuotedString) ++ "]\x7d\n\x00") ∧
    (makeReplyData (exampleEnv none) exampleAdapter examplePrefix
        (Json.Value.array [Json.Value.string "a", Json.Value.string "bb"])
        0 true false).content = "\x7b\"results\":[\"a\",\"bb\"]\x7d\n\x00" ∧
    (makeReplyData (exampleEnv none) exampleAdapter examplePrefix
        (Json.Value.array [Json.Value.string "apple", Json.Value.string "apricot"])
        0 true true).content = "\x7b\"next\":[\"apple\",\"apricot\"]\x7d\n\x00" := by
  refine ⟨?_, by decide, by decide⟩
  intro env s segmentPrefix names segmentNo isFinalBlock isAutocomplete
  rw [makeReplyData_payload, Json.writeValue, writeElements_strings]
  apply String.ext
  simp [String.data_append]

/-- C10 as stated fails: the content for the rows `a`, `bb` is not the JSON
text followed by a NUL byte and nothing else; a line feed stands between
them. -/
theorem makeReplyData_line_feed :
    (makeReplyData (exampleEnv none) exampleAdapter examplePrefix
        (Json.Value.array [Json.Value.string "a", Json.Value.string "bb"])
        0 true false).content ≠ "\x7b\"results\":[\"a\",\"bb\"]\x7d\x00" ∧
    (makeReplyData (exampleEnv none) exampleAdapter examplePrefix
        (Json.Value.array [Json.Value.string "apple", Json.Value.string "apricot"])
        0 true true).content ≠ "\x7b\"next\":[\"apple\",\"apricot\"]\x7d\x00" := by
  decide

end atmos

namespace atmos

open ndn

theorem onConfigDatabaseItem_error (subItem : String × ConfigSection) (l : ConfigLocals) :
    (∃ e, onConfigDatabaseItem subItem l = Except.error e) ↔
      ((subItem.1 = "dbServer" ∨ subItem.1 = "dbName" ∨ subItem.1 = "dbUser" ∨
        subItem.1 = "dbPasswd") ∧ subItem.2.value = "") := by
  obtain ⟨k, n⟩ := subItem
  by_cases hv : n.value = ""
  · by_cases h1 : k = "dbServer"
    · subst h1
      simp [onConfigDatabaseItem, hv, bind, Except.bind, throw, throwThe, MonadExceptOf.throw]
    · by_cases h2 : k = "dbName"
      · subst h2
        simp [onConfigDatabaseItem, hv, bind, Except.bind, throw, throwThe, MonadExceptOf.throw,
          pure, Except.pure]
      · by_cases h3 : k = "dbUser"
        · subst h3
          simp [onConfigDatabaseItem, hv, bind, Except.bind, throw, throwThe,
            MonadExceptOf.throw, pure, Except.pure]
        · by_cases h4 : k = "dbPasswd"
          · subst h4
            simp [onConfigDatabaseItem, hv, bind, Except.bind, throw, throwThe,
              MonadExceptOf.throw, pure, Except.pure]
          · simp [onConfigDatabaseItem, hv, h1, h2, h3, h4, bind, Except.bind, pure,
              Except.pure]
  · simp only [hv, and_false, iff_false, not_exists]
    intro e
    by_cases h1 : k = "dbServer" <;> by_cases h2 : k = "dbName" <;>
      by_cases h3 : k = "dbUser" <;> by_cases h4 : k = "dbPasswd" <;>
      simp [onConfigDatabaseItem, hv, h1, h2, h3, h4, bind, Except.bind, pure, Except.pure]

theorem onConfigDatabase_error : ∀ (subItems : List (String × ConfigSection))
    (l : ConfigLocals),
    (∃ e, onConfigDatabase subItems l = Except.error e) ↔
      ∃ subItem ∈ subItems,
        (subItem.1 = "dbServer" ∨ subItem.1 = "dbName" ∨ subItem.1 = "dbUser" ∨
          subItem.1 = "dbPasswd") ∧ subItem.2.value = "" := by
  intro subItems
  induction subItems with
  | nil => intro l; simp [onConfigDatabase, pure, Except.pure]
  | cons subItem rest ih =>
    intro l
    have hi := onConfigDatabaseItem_error subItem l
    cases h : onConfigDatabaseItem subItem l with
    | error e =>
      have hb : (subItem.1 = "dbServer" ∨ subItem.1 = "dbName" ∨ subItem.1 = "dbUser" ∨
          subItem.1 = "dbPasswd") ∧ subItem.2.value = "" := hi.mp ⟨e, h⟩
      constructor
      · intro _; exact ⟨subItem, List.mem_cons_self _ _, hb⟩
      · intro _; exact ⟨e, by simp [onConfigDatabase, h, bind, Except.bind]⟩
    | ok l2 =>
      have hb : ¬ ((subItem.1 = "dbServer" ∨ subItem.1 = "dbName" ∨ subItem.1 = "dbUser" ∨
          subItem.1 = "dbPasswd") ∧ subItem.2.value = "") := by
        intro hb
        obtain ⟨e, he⟩ := hi.mpr hb
        rw [h] at he
        cases he
      have hstep : onConfigDatabase (subItem :: rest) l = onConfigDatabase rest l2 := by
        simp [onConfigDatabase, h, bind, Except.bind]
      rw [hstep, ih l2]
      constructor
      · rintro ⟨x, hx, hp⟩; exact ⟨x, List.mem_cons_of_mem _ hx, hp⟩
      · rintro ⟨x, hx, hp⟩
        rcases List.mem_cons.mp hx with hx | hx
        · subst hx; exact absurd hp hb
        · exact ⟨x, hx, hp⟩

theorem onConfigItem_error (item : String × ConfigSection) (l : ConfigLocals) :
    (∃ e, onConfigItem item l = Except.error e) ↔
      ((item.1 = "signingId" ∧ item.2.value = "") ∨
        (item.1 = "database" ∧ ∃ subItem ∈ item.2.children,
          (subItem.1 = "dbServer" ∨ subItem.1 = "dbName" ∨ subItem.1 = "dbUser" ∨
            subItem.1 = "dbPasswd") ∧ subItem.2.value = "")) := by
  obtain ⟨k, n⟩ := item
  by_cases h1 : k = "signingId"
  · subst h1
    by_cases hv : n.value = ""
    · simp [onConfigItem, hv, bind, Except.bind, throw, throwThe, MonadExceptOf.throw]
    · simp [onConfigItem, hv, bind, Except.bind, pure, Except.pure]
  · by_cases h2 : k = "database"
    · subst h2
      have hd := onConfigDatabase_error n.children l
      simpa [onConfigItem, bind, Except.bind, pure, Except.pure] using hd
    · simp [onConfigItem, h1, h2, bind, Except.bind, pure, Except.pure]

theorem onConfigItems_error : ∀ (items : List (String × ConfigSection)) (l : ConfigLocals),
    (∃ e, onConfigItems items l = Except.error e) ↔
      ((∃ item ∈ items, item.1 = "signingId" ∧ item.2.value = "") ∨
        (∃ item ∈ items, item.1 = "database" ∧ ∃ subItem ∈ item.2.children,
          (subItem.1 = "dbServer" ∨ subItem.1 = "dbName" ∨ subItem.1 = "dbUser" ∨
            subItem.1 = "dbPasswd") ∧ subItem.2.value = "")) := by
  intro items
  induction items with
  | nil => intro l; simp [onConfigItems, pure, Except.pure]
  | cons item rest ih =>
    intro l
    have hi := onConfigItem_error item l
    cases h : onConfigItem item l with
    | error e =>
      have hb := hi.mp ⟨e, h⟩
      constructor
      · intro _
        rcases hb with hb | hb
        · exact Or.inl ⟨item, List.mem_cons_self _ _, hb⟩
        · exact Or.inr ⟨item, List.mem_cons_self _ _, hb⟩
      · intro _; exact ⟨e, by simp [onConfigItems, h, bind, Except.bind]⟩
    | ok l2 =>
      have hb : ¬ ((item.1 = "signingId" ∧ item.2.value = "") ∨
          (item.1 = "database" ∧ ∃ subItem ∈ item.2.children,
            (subItem.1 = "dbServer" ∨ subItem.1 = "dbName" ∨ subItem.1 = "dbUser" ∨
              subItem.1 = "dbPasswd") ∧ subItem.2.value = "")) := by
        intro hb
        obtain ⟨e, he⟩ := hi.mpr hb
        rw [h] at he
        cases he
      have hstep : onConfigItems (item :: rest) l = onConfigItems rest l2 := by
        simp [onConfigItems, h, bind, Except.bind]
      rw [hstep, ih l2]
      constructor
      · rintro (⟨x, hx, hp⟩ | ⟨x, hx, hp⟩)
        · exact Or.inl ⟨x, List.mem_cons_of_mem _ hx, hp⟩
        · exact Or.inr ⟨x, List.mem_cons_of_mem _ hx, hp⟩
      · rintro (⟨x, hx, hp⟩ | ⟨x, hx, hp⟩)
        · rcases List.mem_cons.mp hx with hx | hx
          · subst hx; exact absurd (Or.inl hp) hb
          · exact Or.inl ⟨x, hx, hp⟩
        · rcases List.mem_cons.mp hx with hx | hx
          · subst hx; exact absurd (Or.inr hp) hb
          · exact Or.inr ⟨x, hx, hp⟩

/-- The loop of `onConfig` throws exactly when a required field is present
with an empty value. -/
theorem onConfigItems_error_iff (configSection : ConfigSection) :
    (∃ e, onConfigItems configSection.children {} = Except.error e) ↔
      EmptyRequiredField configSection :=
  onConfigItems_error configSection.children {}

/-- The sections that a call of `onConfig` rejects when it is not a dry run are
exactly those in which a required field is present with an empty value; the
adapter is then as it was.  A dry run rejects nothing. -/
theorem onConfig_error_iff (nameFromUri : String → Name)
    (configSection : ConfigSection) (filename : String) (pfx : Name) (s : QueryAdapter) :
    ((∃ e, onConfig nameFromUri configSection false filename pfx s = (s, some e)) ↔
      EmptyRequiredField configSection) ∧
    ((onConfig nameFromUri configSection false filename pfx s).2 = none ↔
      ¬ EmptyRequiredField configSection) ∧
    onConfig nameFromUri configSection true filename pfx s = (s, none) := by
  have hiff := onConfigItems_error_iff configSection
  refine ⟨?_, ?_, by simp [onConfig]⟩
  · cases h : onConfigItems configSection.children {} with
    | error e =>
      have hp : EmptyRequiredField configSection := hiff.mp ⟨e, h⟩
      simp [onConfig, h, hp]
    | ok l =>
      have hp : ¬ EmptyRequiredField configSection := by
        intro hp
        obtain ⟨e, he⟩ := hiff.mpr hp
        rw [h] at he
        cases he
      simp [onConfig, h, hp]
  · cases h : onConfigItems configSection.children {} with
    | error e =>
      have hp : EmptyRequiredField configSection := hiff.mp ⟨e, h⟩
      simp [onConfig, h, hp]
    | ok l =>
      have hp : ¬ EmptyRequiredField configSection := by
        intro hp
        obtain ⟨e, he⟩ := hiff.mpr hp
        rw [h] at he
        cases he
      simp [onConfig, h, hp]

/-- C17 (as amended): a call of `onConfig` that is not a dry run rejects every
section in which a required field is present with an empty value: it ends with
an `Error` before the core starts, the adapter being exactly as it was (no
prefix or signing identity set, no data base handler, no filter). -/
theorem onConfig_rejects_empty_field (nameFromUri : String → Name)
    (configSection : ConfigSection) (filename : String) (pfx : Name) (s : QueryAdapter)
    (h : EmptyRequiredField configSection) :
    ∃ e, onConfig nameFromUri configSection false filename pfx s = (s, some e) := by
  obtain ⟨e, he⟩ := (onConfigItems_error_iff configSection).mpr h
  exact ⟨e, by simp [onConfig, he]⟩

/-- Witness of C17: a section whose only item is an empty `signingId`. -/
theorem onConfig_rejects_empty_field_witness :
    EmptyRequiredField (ConfigSection.node "" [("signingId", ConfigSection.node "" [])]) ∧
    ∃ e, onConfig exampleNameFromUri
        (ConfigSection.node "" [("signingId", ConfigSection.node "" [])]) false "catalog.conf"
        examplePrefix QueryAdapter.constructed = (QueryAdapter.constructed, some e) :=
  have hp : EmptyRequiredField
      (ConfigSection.node "" [("signingId", ConfigSection.node "" [])]) :=
    Or.inl ⟨("signingId", ConfigSection.node "" []), List.mem_cons_self _ _, rfl, rfl⟩
  ⟨hp, onConfig_rejects_empty_field exampleNameFromUri
    (ConfigSection.node "" [("signingId", ConfigSection.node "" [])]) "catalog.conf"
    examplePrefix QueryAdapter.constructed hp⟩

/-- C17 as stated fails: a section in which `signingId` is missing is not
rejected (the signing identity stays empty, so that `signData` uses the default
key), and a dry run rejects nothing, not even a section with an empty
password. -/
theorem onConfig_accepts_missing_signingId :
    onConfig exampleNameFromUri noSigningIdSection false "catalog.conf" examplePrefix
        QueryAdapter.constructed =
      ({ QueryAdapter.constructed with
          m_prefix := examplePrefix
          m_signingId := []
          m_databaseHandler := some
            { server := "localhost", user := "atmos", password := "secret",
              database := "testdb" }
          m_registeredPrefixList :=
            [Name.append examplePrefix "query", Name.append examplePrefix "query-results"] },
        none) ∧
    onConfig exampleNameFromUri emptyPasswordSection true "catalog.conf" examplePrefix
        QueryAdapter.constructed = (QueryAdapter.constructed, none) := by
  constructor <;> rfl

/-- C18: in a call that is not a dry run, a section in which `signingId`, or
`dbServer`, `dbName`, `dbUser` or `dbPasswd` inside a `database` subsection, is
present with an empty value makes `onConfig` throw an `Error`, and nothing was
assigned before: `m_prefix`, `m_signingId`, the data base handler and the list
of registered filters are as they were. -/
theorem onConfig_empty_field_throws (nameFromUri : String → Name)
    (configSection : ConfigSection) (filename : String) (pfx : Name) (s : QueryAdapter)
    (h : EmptyRequiredField configSection) :
    ∃ e, (onConfig nameFromUri configSection false filename pfx s).2 = some e ∧
      QueryAdapter.m_prefix (onConfig nameFromUri configSection false filename pfx s).1 =
        s.m_prefix ∧
      (onConfig nameFromUri configSection false filename pfx s).1.m_signingId =
        s.m_signingId ∧
      (onConfig nameFromUri configSection false filename pfx s).1.m_databaseHandler =
        s.m_databaseHandler ∧
      (onConfig nameFromUri configSection false filename pfx s).1.m_registeredPrefixList =
        s.m_registeredPrefixList := by
  obtain ⟨e, he⟩ := (onConfigItems_error_iff configSection).mpr h
  exact ⟨e, by simp [onConfig, he]⟩

/-- Witness of C18: a section with every field, the password empty. -/
theorem onConfig_empty_field_throws_witness :
    EmptyRequiredField emptyPasswordSection ∧
    ∃ e, (onConfig exampleNameFromUri emptyPasswordSection false "catalog.conf" examplePrefix
        QueryAdapter.constructed).2 = some e ∧
      QueryAdapter.m_prefix (onConfig exampleNameFromUri emptyPasswordSection false
        "catalog.conf" examplePrefix QueryAdapter.constructed).1 =
        QueryAdapter.constructed.m_prefix ∧
      (onConfig exampleNameFromUri emptyPasswordSection false "catalog.conf" examplePrefix
        QueryAdapter.constructed).1.m_signingId = QueryAdapter.constructed.m_signingId ∧
      (onConfig exampleNameFromUri emptyPasswordSection false "catalog.conf" examplePrefix
        QueryAdapter.constructed).1.m_databaseHandler =
        QueryAdapter.constructed.m_databaseHandler ∧
      (onConfig exampleNameFromUri emptyPasswordSection false "catalog.conf" examplePrefix
        QueryAdapter.constructed).1.m_registeredPrefixList =
        QueryAdapter.constructed.m_registeredPrefixList :=
  have hp : EmptyRequiredField emptyPasswordSection :=
    Or.inr ⟨("database", ConfigSection.node ""
        [("dbServer", ConfigSection.node "localhost" []),
         ("dbName", ConfigSection.node "testdb" []),
         ("dbUser", ConfigSection.node "atmos" []),
         ("dbPasswd", ConfigSection.node "" [])]),
      List.mem_cons_of_mem _ (List.mem_cons_self _ _), rfl,
      ("dbPasswd", ConfigSection.node "" []),
      List.mem_cons_of_mem _ (List.mem_cons_of_mem _ (List.mem_cons_of_mem _
        (List.mem_cons_self _ _))),
      Or.inr (Or.inr (Or.inr rfl)), rfl⟩
  ⟨hp, onConfig_empty_field_throws exampleNameFromUri emptyPasswordSection "catalog.conf"
    examplePrefix QueryAdapter.constructed hp⟩

end atmos

namespace atmos

open ndn

theorem longestRowBytes_ge : ∀ (rows : List String), ∀ r ∈ rows,
    strlen r + 1 ≤ longestRowBytes rows := by
  intro rows
  induction rows with
  | nil => intro r hr; simp at hr
  | cons x rest ih =>
    intro r hr
    have hx : longestRowBytes (x :: rest) = max (strlen x + 1) (longestRowBytes rest) := rfl
    rw [hx]
    rcases List.mem_cons.mp hr with hr | hr
    · subst hr; exact Nat.le_max_left _ _
    · exact Nat.le_trans (ih r hr) (Nat.le_max_right _ _)

/-- Every group of `splitRows` counts at most `PAYLOAD_LIMIT` plus a bound on
the rows, when the buffer starts within that figure. -/
theorem splitRows_bound (m : Nat) : ∀ (rows cur : List String),
    payloadBytes cur ≤ PAYLOAD_LIMIT + m → (∀ r ∈ rows, strlen r + 1 ≤ m) →
    ∀ g ∈ (splitRows rows cur).1 ++ [(splitRows rows cur).2],
      payloadBytes g ≤ PAYLOAD_LIMIT + m := by
  intro rows
  induction rows with
  | nil => intro cur hc _ g hg; simp [splitRows] at hg; simpa [hg] using hc
  | cons r rest ih =>
    intro cur hc hr g hg
    have hr1 : strlen r + 1 ≤ m := hr r (List.mem_cons_self _ _)
    have hr2 : ∀ x ∈ rest, strlen x + 1 ≤ m := fun x hx => hr x (List.mem_cons_of_mem _ hx)
    by_cases h : payloadBytes cur + (strlen r + 1) > PAYLOAD_LIMIT
    · simp only [splitRows, h, if_true, List.cons_append, List.mem_cons] at hg
      rcases hg with hg | hg
      · simpa [hg] using hc
      · refine ih [r] ?_ hr2 g hg
        rw [payloadBytes_singleton]; omega
    · simp only [splitRows, h, if_false] at hg
      refine ih (cur ++ [r]) ?_ hr2 g hg
      rw [payloadBytes_append, payloadBytes_singleton]
      omega

theorem hexDigit_size (n : Nat) (h : n < 16) : (Json.hexDigit n).utf8Size = 1 := by
  interval_cases n <;> rfl

theorem escapeChar_size (c : Char) : String.utf8Len (Json.escapeChar c) ≤ 6 * c.utf8Size := by
  have hpos := Char.utf8Size_pos c
  have hq : ('"' : Char).utf8Size = 1 := rfl
  have hb : ('\\' : Char).utf8Size = 1 := rfl
  have hcb : ('b' : Char).utf8Size = 1 := rfl
  have hcf : ('f' : Char).utf8Size = 1 := rfl
  have hcn : ('n' : Char).utf8Size = 1 := rfl
  have hcr : ('r' : Char).utf8Size = 1 := rfl
  have hct : ('t' : Char).utf8Size = 1 := rfl
  have hu : ('u' : Char).utf8Size = 1 := rfl
  have h0 : ('0' : Char).utf8Size = 1 := rfl
  unfold Json.escapeChar
  split_ifs with h1 h2 h3 h4 h5 h6 h7 h8
  · simp only [String.utf8Len_cons, String.utf8Len_nil, hq, hb]; omega
  · simp only [String.utf8Len_cons, String.utf8Len_nil, hb]; omega
  · simp only [String.utf8Len_cons, String.utf8Len_nil, hb, hcb]; omega
  · simp only [String.utf8Len_cons, String.utf8Len_nil, hb, hcf]; omega
  · simp only [String.utf8Len_cons, String.utf8Len_nil, hb, hcn]; omega
  · simp only [String.utf8Len_cons, String.utf8Len_nil, hb, hcr]; omega
  · simp only [String.utf8Len_cons, String.utf8Len_nil, hb, hct]; omega
  · have hd1 := hexDigit_size (c.toNat / 16) (by omega)
    have hd2 := hexDigit_size (c.toNat % 16) (by omega)
    simp only [String.utf8Len_cons, String.utf8Len_nil, hb, hu, h0, hd1, hd2]; omega
  · simp only [String.utf8Len_cons, String.utf8Len_nil]; omega

theorem flatMap_escape_size : ∀ (cs : List Char),
    String.utf8Len (cs.flatMap Json.escapeChar) ≤ 6 * String.utf8Len cs := by
  intro cs
  induction cs with
  | nil => simp
  | cons c cs ih =>
    have hc := escapeChar_size c
    simp only [List.flatMap_cons, String.utf8Len_append, String.utf8Len_cons]
    omega

theorem valueToQuotedString_size (s : String) :
    byteLength (Json.valueToQuotedString s) ≤ 2 + 6 * byteLength s := by
  unfold Json.valueToQuotedString
  rw [byteLength_append, byteLength_append]
  have h1 : byteLength "\"" = 1 := by decide
  have h2 : byteLength (String.mk (s.data.flatMap Json.escapeChar)) ≤ 6 * byteLength s := by
    obtain ⟨cs⟩ := s
    exact flatMap_escape_size cs
  omega

/-- The comma-separated quoted names take at most six bytes per counted byte,
with one byte to spare. -/
theorem intercalate_quoted_size : ∀ (names : List String), names ≠ [] →
    byteLength (",".intercalate ((names.map cstr).map Json.valueToQuotedString)) + 1 ≤
      6 * payloadBytes names := by
  intro names
  induction names with
  | nil => intro h; exact absurd rfl h
  | cons x rest ih =>
    intro _
    have hx := valueToQuotedString_size (cstr x)
    have hs : strlen x = byteLength (cstr x) := rfl
    have hp : payloadBytes (x :: rest) = strlen x + 1 + payloadBytes rest := by
      simp [payloadBytes]
    cases rest with
    | nil =>
      have : ",".intercalate (([x].map cstr).map Json.valueToQuotedString) =
          Json.valueToQuotedString (cstr x) := by
        simp [String.intercalate, String.intercalate.go]
      rw [this, hp]
      have : payloadBytes [] = 0 := rfl
      omega
    | cons y rest2 =>
      have ih2 := ih (by simp)
      have hc : byteLength "," = 1 := by decide
      simp only [List.map_cons] at ih2 ⊢
      rw [intercalate_cons_cons, byteLength_append, byteLength_append, hc, hp]
      omega

/-- The content of a segment takes at most 18 bytes plus six bytes for each
byte that `prepareSegments` counted for its rows. -/
theorem segment_content_size_bound (env : Env) (s : QueryAdapter) (segmentPrefix : Name)
    (g : List String) (segmentNo : Nat) (isFinalBlock isAutocomplete : Bool) :
    byteLength (makeReplyData env s segmentPrefix (bufferValue g) segmentNo isFinalBlock
      isAutocomplete).content ≤ 18 + 6 * payloadBytes g := by
  rw [makeReplyData_payload, byteLength_append, byteLength_append, byteLength_append,
    byteLength_append]
  have h1 : byteLength "\x7b\"" = 2 := by decide
  have h2 : byteLength "\":" = 2 := by decide
  have h3 : byteLength "\x7d\n\x00" = 3 := by decide
  have hk : byteLength (if isAutocomplete then "next" else "results") ≤ 7 := by
    cases isAutocomplete <;> decide
  have hv : byteLength (Json.writeValue (bufferValue g)) ≤ 4 + 6 * payloadBytes g := by
    cases g with
    | nil =>
      have : byteLength (Json.writeValue (bufferValue [])) = 4 := by decide
      omega
    | cons c cs =>
      rw [bufferValue_cons, Json.writeValue, writeElements_strings, byteLength_append,
        byteLength_append]
      have hb1 : byteLength "[" = 1 := by decide
      have hb2 : byteLength "]" = 1 := by decide
      have := intercalate_quoted_size (c :: cs) (by simp)
      omega
  omega

theorem byteLength_intercalate_replicate (q : String) : ∀ (n : Nat),
    byteLength (",".intercalate (List.replicate (n + 1) q)) = (n + 1) * byteLength q + n := by
  intro n
  induction n with
  | zero => simp [String.intercalate, String.intercalate.go]
  | succ n ih =>
    have hc : byteLength "," = 1 := by decide
    rw [List.replicate_succ, List.replicate_succ, intercalate_cons_cons, byteLength_append,
      byteLength_append, hc, ← List.replicate_succ, ih]
    ring

/-- The size of the content of a `results` segment that holds `n + 1` copies of
a row. -/
theorem content_size_replicate (r : String) (n : Nat) :
    byteLength (segmentText false (bufferValue (List.replicate (n + 1) r))) =
      16 + (n + 1) * byteLength (Json.valueToQuotedString (cstr r)) + n := by
  rw [segmentText, List.replicate_succ, bufferValue_cons, Json.writeValue,
    writeElements_strings, ← List.replicate_succ, List.map_replicate, List.map_replicate,
    byteLength_append, byteLength_append, byteLength_append, byteLength_append,
    byteLength_append, byteLength_append, byteLength_intercalate_replicate]
  have h1 : byteLength "\x7b\"" = 2 := by decide
  have h2 : byteLength "\":" = 2 := by decide
  have h3 : byteLength "\x7d\n\x00" = 3 := by decide
  have h4 : byteLength (if false = true then "next" else "results") = 7 := by decide
  have hb1 : byteLength "[" = 1 := by decide
  have hb2 : byteLength "]" = 1 := by decide
  omega

/-- C11: the code at the failing input.  For 3000 rows of five bytes each
(longest row: `strlen + 1 = 6`) the three segments that `prepareSegments`
inserts into the cache have contents of 9343, 9343 and 5359 bytes, where the
budget is `PAYLOAD_LIMIT + 6 = 7006`: the loop counts `strlen + 1` for each row,
the content takes the quotes and the comma of each row, the wrapper, the line
feed and the NUL on top. -/
theorem segment_content_exceeds_budget :
    (prepareSegments (exampleEnv (some (List.replicate 3000 "aaaaa"))) examplePrefix "q"
        false exampleAdapter).m_cache.map (fun d => byteLength d.content) =
      [9343, 9343, 5359] ∧
    PAYLOAD_LIMIT + longestRowBytes (List.replicate 3000 "aaaaa") = 7006 := by
  constructor
  · rw [prepareSegments_eq (exampleEnv (some (List.replicate 3000 "aaaaa"))) examplePrefix "q"
      false exampleAdapter (List.replicate 3000 "aaaaa") rfl,
      splitRows_replicate_3000 "aaaaa" (by decide)]
    have hq : byteLength (Json.valueToQuotedString (cstr "aaaaa")) = 7 := by decide
    have hpay : ∀ (value : Json.Value) (n : Nat) (fin : Bool),
        (makeReplyData (exampleEnv (some (List.replicate 3000 "aaaaa"))) exampleAdapter
          examplePrefix value n fin false).content = segmentText false value := by
      intro value n fin
      have h2 : Json.valueToQuotedString "results" = "\"results\"" := by decide
      simp only [makeReplyData, signData, segmentText, Json.FastWriter.write, Json.writeValue,
        Json.writeMembers, h2, if_false]
      apply String.ext
      simp [String.data_append, h2]
    have e1 := content_size_replicate "aaaaa" 1165
    have e3 := content_size_replicate "aaaaa" 667
    rw [hq, ← hpay _ 0 false] at e1
    have e2 := content_size_replicate "aaaaa" 1165
    rw [hq, ← hpay _ 1 false] at e2
    rw [hq, ← hpay _ 2 true] at e3
    show [byteLength (makeReplyData _ _ _ (bufferValue (List.replicate (1165 + 1) "aaaaa")) 0 false
        false).content,
      byteLength (makeReplyData _ _ _ (bufferValue (List.replicate (1165 + 1) "aaaaa")) 1 false
        false).content,
      byteLength (makeReplyData _ _ _ (bufferValue (List.replicate (667 + 1) "aaaaa")) 2 true
        false).content] = _
    rw [e1, e2, e3]
  · have hl : ∀ n, longestRowBytes (List.replicate (n + 1) "aaaaa") = 6 := by
      intro n
      induction n with
      | zero => decide
      | succ n ih =>
        have : longestRowBytes (List.replicate (n + 1 + 1) "aaaaa") =
            max (strlen "aaaaa" + 1) (longestRowBytes (List.replicate (n + 1) "aaaaa")) := rfl
        rw [this, ih]; decide
    rw [show (3000 : Nat) = 2999 + 1 from rfl, hl]
    rfl

end atmos

namespace atmos

open ndn

/-- A fresh run: how `runJsonQuery` goes on once the query has parsed.  The
adapter `acked` is the one in which the ACK has been put to the face and stored
in the map, and nothing else has happened. -/
theorem runJsonQuery_fresh_steps (env : Env) (interest : Interest) (s : QueryAdapter)
    (jsonStr : Component) (v : Json.Value)
    (hname : interest.name[ s.m_prefix.length + 1]? = some jsonStr)
    (hlen : 0 < byteLength jsonStr.value)
    (hreg : s.m_activeQueryToFirstResponse.lookup jsonStr.value = none)
    (hparse : env.parse jsonStr.value = some v) :
    runJsonQuery env interest s =
      match json2Sql "" v false with
      | none =>
        ({ s with
            m_activeQueryToFirstResponse := s.m_activeQueryToFirstResponse ++
              [(jsonStr.value, makeAckData s interest (env.fromVersion env.now))]
            facePut := s.facePut ++ [makeAckData s interest (env.fromVersion env.now)] },
          some Fault.jsonNotConvertible)
      | some p =>
        (prepareSegments env
          (Name.append s.m_prefix "query-results" ++ [env.fromVersion env.now]) p.1 p.2
          { s with
            m_activeQueryToFirstResponse := s.m_activeQueryToFirstResponse ++
              [(jsonStr.value, makeAckData s interest (env.fromVersion env.now))]
            facePut := s.facePut ++ [makeAckData s interest (env.fromVersion env.now)] },
          none) := by
  cases hj : json2Sql "" v false with
  | none => simp [runJsonQuery, hname, Nat.not_le.mpr hlen, hreg, hparse, hj]
  | some p =>
    obtain ⟨sql, ac⟩ := p
    simp [runJsonQuery, hname, Nat.not_le.mpr hlen, hreg, hparse, hj]

/-- What `prepareSegments` inserts into the cache: nothing for a null result
set, otherwise segments named `segmentPrefix/seg(0)`, `segmentPrefix/seg(1)`,
... -/
theorem prepareSegments_inserted (env : Env) (segmentPrefix : Name) (sqlString : String)
    (autocomplete : Bool) (s : QueryAdapter) :
    ∃ inserted : List Data,
      (prepareSegments env segmentPrefix sqlString autocomplete s).m_cache =
        s.m_cache ++ inserted ∧
      inserted.map Data.name =
        (List.range inserted.length).map (fun i => segmentPrefix ++ [env.fromSegment i]) ∧
      (env.performQuery sqlString = none → inserted = []) ∧
      (env.performQuery sqlString ≠ none → inserted ≠ []) := by
  cases h : env.performQuery sqlString with
  | none => exact ⟨[], by simp [prepareSegments, h], rfl, fun _ => rfl, fun hc => absurd rfl hc⟩
  | some rows =>
    refine ⟨runSegments env s segmentPrefix autocomplete
      ((splitRows rows []).1.map bufferValue) (bufferValue (splitRows rows []).2), ?_, ?_, ?_, ?_⟩
    · rw [prepareSegments_eq env segmentPrefix sqlString autocomplete s rows h]
    · rw [runSegments_names]
      simp [runSegments, nonFinalSegments_length]
    · intro hc; cases hc
    · intro _; simp [runSegments]

/-- C12: for a fresh, parseable query the ACK that `runJsonQuery` puts to the
face is named `Interest.Name/V/OK`, and every segment that the run inserts into
the cache is named `P/query-results/V/seg(i)` with that same version component
`V`, `i` counting from 0; when the query was translated and the data base
returned a result set, segment 0 exists. -/
theorem runJsonQuery_segments_share_ack_version (env : Env) (interest : Interest)
    (s : QueryAdapter) (q : Name) (jsonStr : Component) (v : Json.Value)
    (hq : q.length = s.m_prefix.length + 1)
    (hname : interest.name = q ++ [jsonStr])
    (hne : jsonStr.value ≠ "")
    (hparse : env.parse jsonStr.value = some v)
    (hfresh : s.m_activeQueryToFirstResponse.lookup jsonStr.value = none) :
    ∃ (ack : Data) (version : Component) (inserted : List Data),
      (runJsonQuery env interest s).1.facePut = s.facePut ++ [ack] ∧
      ack.name = interest.name ++ [version, Component.mk "OK"] ∧
      (runJsonQuery env interest s).1.m_cache = s.m_cache ++ inserted ∧
      inserted.map Data.name =
        (List.range inserted.length).map
          (fun i => s.m_prefix ++ [Component.mk "query-results", version, env.fromSegment i]) ∧
      (∀ sql ac, json2Sql "" v false = some (sql, ac) → env.performQuery sql ≠ none →
        inserted ≠ []) := by
  have hidx : interest.name[ s.m_prefix.length + 1]? = some jsonStr := by
    rw [hname, ← hq]; simp
  have hlen := byteLength_pos_of_ne_empty _ hne
  have hsteps := runJsonQuery_fresh_steps env interest s jsonStr v hidx hlen hfresh hparse
  have hackname : (makeAckData s interest (env.fromVersion env.now)).name =
      interest.name ++ [env.fromVersion env.now, Component.mk "OK"] := by
    simp [makeAckData, signData, Name.append]
  cases hj : json2Sql "" v false with
  | none =>
    rw [hj] at hsteps
    refine ⟨makeAckData s interest (env.fromVersion env.now), env.fromVersion env.now, [],
      ?_, hackname, ?_, rfl, ?_⟩
    · rw [hsteps]
    · rw [hsteps]; simp
    · intro sql ac hc; cases hc
  | some p =>
    obtain ⟨sql, ac⟩ := p
    rw [hj] at hsteps
    simp only at hsteps
    obtain ⟨inserted, hc, hn, _, hne2⟩ := prepareSegments_inserted env
      (Name.append s.m_prefix "query-results" ++ [env.fromVersion env.now]) sql ac
      { s with
        m_activeQueryToFirstResponse := s.m_activeQueryToFirstResponse ++
          [(jsonStr.value, makeAckData s interest (env.fromVersion env.now))]
        facePut := s.facePut ++ [makeAckData s interest (env.fromVersion env.now)] }
    have hf := prepareSegments_frame env
      (Name.append s.m_prefix "query-results" ++ [env.fromVersion env.now]) sql ac
      { s with
        m_activeQueryToFirstResponse := s.m_activeQueryToFirstResponse ++
          [(jsonStr.value, makeAckData s interest (env.fromVersion env.now))]
        facePut := s.facePut ++ [makeAckData s interest (env.fromVersion env.now)] }
    refine ⟨makeAckData s interest (env.fromVersion env.now), env.fromVersion env.now,
      inserted, ?_, hackname, ?_, ?_, ?_⟩
    · rw [hsteps]; exact hf.2.2.2.1
    · rw [hsteps]; exact hc
    · rw [hn]
      simp [Name.append]
    · intro sql2 ac2 he hq2
      have : sql2 = sql := by
        have := Option.some.inj he
        exact (congrArg Prod.fst this).symm
      subst this
      exact hne2 hq2

/-- Witness of C12: `exampleInterest` at the freshly configured adapter. -/
theorem runJsonQuery_segments_share_ack_version_witness :
    ([Component.mk "catalog", Component.mk "lap", Component.mk "query"] : Name).length =
      exampleAdapter.m_prefix.length + 1 ∧
    ∃ (ack : Data) (version : Component) (inserted : List Data),
      (runJsonQuery (exampleEnv (some ["apple", "apricot"])) exampleInterest
          exampleAdapter).1.facePut = exampleAdapter.facePut ++ [ack] ∧
      ack.name = exampleInterest.name ++ [version, Component.mk "OK"] ∧
      (runJsonQuery (exampleEnv (some ["apple", "apricot"])) exampleInterest
          exampleAdapter).1.m_cache = exampleAdapter.m_cache ++ inserted ∧
      inserted.map Data.name =
        (List.range inserted.length).map
          (fun i => exampleAdapter.m_prefix ++ [Component.mk "query-results", version,
            (exampleEnv (some ["apple", "apricot"])).fromSegment i]) ∧
      (∀ sql ac, json2Sql "" (Json.Value.object [("?", Json.Value.string "ap")]) false =
          some (sql, ac) →
        (exampleEnv (some ["apple", "apricot"])).performQuery sql ≠ none → inserted ≠ []) :=
  ⟨rfl, runJsonQuery_segments_share_ack_version (exampleEnv (some ["apple", "apricot"]))
    exampleInterest exampleAdapter
    [Component.mk "catalog", Component.mk "lap", Component.mk "query"]
    (Component.mk "\x7b\"?\":\"ap\"\x7d")
    (Json.Value.object [("?", Json.Value.string "ap")]) rfl rfl (by decide) rfl rfl⟩

end atmos

namespace atmos

open ndn

/-- The loop of `prepareSegments`, from any locals: it puts nothing to the
face, leaves the map alone and only adds to the cache. -/
theorem prepareSegmentsLoop_frame (env : Env) (segmentPrefix : Name) (autocomplete : Bool) :
    ∀ (rows : List String) (l : Locals) (s : QueryAdapter),
      (prepareSegmentsLoop env segmentPrefix autocomplete rows l s).2.facePut = s.facePut ∧
      (prepareSegmentsLoop env segmentPrefix autocomplete rows l
        s).2.m_activeQueryToFirstResponse = s.m_activeQueryToFirstResponse ∧
      ∃ inserted,
        (prepareSegmentsLoop env segmentPrefix autocomplete rows l s).2.m_cache =
          s.m_cache ++ inserted := by
  intro rows
  induction rows with
  | nil => intro l s; exact ⟨rfl, rfl, [], by simp [prepareSegmentsLoop]⟩
  | cons r rest ih =>
    intro l s
    by_cases h : l.usedBytes + (strlen r + 1) > PAYLOAD_LIMIT
    · simp only [prepareSegmentsLoop, h, if_true]
      obtain ⟨h1, h2, ins, h3⟩ := ih
        { usedBytes := 0 + (strlen r + 1), segmentNo := l.segmentNo + 1,
          array := l.array.clear.append (Json.Value.string (cstr r)) }
        { s with m_cache := s.m_cache ++
            [makeReplyData env s segmentPrefix l.array l.segmentNo false autocomplete] }
      exact ⟨h1, h2,
        makeReplyData env s segmentPrefix l.array l.segmentNo false autocomplete :: ins,
        by rw [h3]; simp⟩
    · simp only [prepareSegmentsLoop, h, if_false]
      exact ih _ s

end atmos

namespace atmos

open ndn

/-- C14: `onQueryResultsInterest` puts to the face exactly the Data that the
cache returns for the name of the Interest, and nothing when the cache returns
none; in both cases the map, the cache log and the SQL log stay as they were.
With the cache of the examples, the Interest for segment 0 of the answered
query is served with that segment and an Interest for a segment that does not
exist is not served. -/
theorem onQueryResultsInterest_serves_cache :
    (∀ (env : Env) (interest : Interest) (s : QueryAdapter),
      (∀ d, env.cacheFind s.m_cache interest.name = some d →
        onQueryResultsInterest env interest s = { s with facePut := s.facePut ++ [d] }) ∧
      (env.cacheFind s.m_cache interest.name = none →
        onQueryResultsInterest env interest s = s) ∧
      (onQueryResultsInterest env interest s).m_activeQueryToFirstResponse =
        s.m_activeQueryToFirstResponse ∧
      (onQueryResultsInterest env interest s).sqlExecuted = s.sqlExecuted ∧
      (onQueryResultsInterest env interest s).m_cache = s.m_cache) ∧
    (onQueryResultsInterest (exampleEnv none) (exampleSegmentInterest 0)
        exampleAnswered).facePut =
      exampleAnswered.facePut ++
        [makeReplyData (exampleEnv none) exampleAdapter (exampleSegmentInterest 0).name.dropLast
          (Json.Value.array [Json.Value.string "apple", Json.Value.string "apricot"])
          0 true true] ∧
    (onQueryResultsInterest (exampleEnv none) (exampleSegmentInterest 5)
        exampleAnswered).facePut = exampleAnswered.facePut := by
  refine ⟨?_, by decide, by decide⟩
  intro env interest s
  refine ⟨?_, ?_, ?_, ?_, ?_⟩
  · intro d hd; simp [onQueryResultsInterest, hd]
  · intro hd; simp [onQueryResultsInterest, hd]
  all_goals (unfold onQueryResultsInterest; split <;> rfl)

/-- C15: `onQueryInterest`, called for the filter `m_prefix/query`, drops every
Interest whose name does not have exactly `|m_prefix| + 2` components (the
adapter is unchanged and nothing is reported) and hands every other Interest to
`runJsonQuery`. -/
theorem onQueryInterest_arity (env : Env) (interest : Interest) (s : QueryAdapter) :
    (interest.name.length ≠ s.m_prefix.length + 2 →
      onQueryInterest env (Name.append s.m_prefix "query") interest s = (s, none)) ∧
    (interest.name.length = s.m_prefix.length + 2 →
      onQueryInterest env (Name.append s.m_prefix "query") interest s =
        runJsonQuery env interest s) := by
  constructor
  · intro h
    simp [onQueryInterest, Name.append, h]
  · intro h
    simp [onQueryInterest, Name.append, h]

/-- A null result set: `prepareSegments` logs the SQL string and does nothing
else. -/
theorem prepareSegments_null_result (env : Env) (segmentPrefix : Name) (sqlString : String)
    (autocomplete : Bool) (s : QueryAdapter) (h : env.performQuery sqlString = none) :
    prepareSegments env segmentPrefix sqlString autocomplete s =
      { s with sqlExecuted := s.sqlExecuted ++ [sqlString] } := by
  simp [prepareSegments, h]

/-- C16: when the data base returns no result handle for the SQL of a fresh
query, the run inserts no segment into the cache and puts no Data but the ACK to
the face; afterwards the map still holds that ACK, so that a later Interest for
the same query gets the ACK again and executes no SQL. -/
theorem runJsonQuery_backend_failure (env : Env) (interest : Interest)
    (s : QueryAdapter) (q : Name) (jsonStr : Component) (v : Json.Value)
    (sqlString : String) (autocomplete : Bool)
    (hq : q.length = s.m_prefix.length + 1)
    (hname : interest.name = q ++ [jsonStr])
    (hne : jsonStr.value ≠ "")
    (hparse : env.parse jsonStr.value = some v)
    (hfresh : s.m_activeQueryToFirstResponse.lookup jsonStr.value = none)
    (hsql : json2Sql "" v false = some (sqlString, autocomplete))
    (hnull : env.performQuery sqlString = none) :
    ∃ ack : Data,
      runJsonQuery env interest s =
        ({ s with
            m_activeQueryToFirstResponse :=
              s.m_activeQueryToFirstResponse ++ [(jsonStr.value, ack)]
            facePut := s.facePut ++ [ack]
            sqlExecuted := s.sqlExecuted ++ [sqlString] }, none) ∧
      (runJsonQuery env interest s).1.m_cache = s.m_cache ∧
      (runJsonQuery env interest s).1.m_activeQueryToFirstResponse.lookup jsonStr.value =
        some ack ∧
      ∀ env2 : Env,
        runJsonQuery env2 interest (runJsonQuery env interest s).1 =
          ({ (runJsonQuery env interest s).1 with
              facePut := (runJsonQuery env interest s).1.facePut ++ [ack] }, none) := by
  have hidx : interest.name[ s.m_prefix.length + 1]? = some jsonStr := by
    rw [hname, ← hq]; simp
  have hlen := byteLength_pos_of_ne_empty _ hne
  have hsteps := runJsonQuery_fresh_steps env interest s jsonStr v hidx hlen hfresh hparse
  rw [hsql] at hsteps
  simp only at hsteps
  rw [prepareSegments_null_result env _ sqlString autocomplete _ hnull] at hsteps
  have hlk := lookup_append_new jsonStr.value (makeAckData s interest (env.fromVersion env.now))
    s.m_activeQueryToFirstResponse hfresh
  refine ⟨makeAckData s interest (env.fromVersion env.now), ?_, ?_, ?_, ?_⟩
  · rw [hsteps]
  · rw [hsteps]
  · rw [hsteps]; exact hlk
  · intro env2
    rw [hsteps]
    exact runJsonQuery_replay env2 interest _ jsonStr _ hidx hlen hlk

/-- Witness of C16: `exampleInterest` at the freshly configured adapter, with a
data base that returns no result handle. -/
theorem runJsonQuery_backend_failure_witness :
    (([Component.mk "catalog", Component.mk "lap", Component.mk "query"] : Name).length =
        exampleAdapter.m_prefix.length + 1 ∧
      json2Sql "" (Json.Value.object [("?", Json.Value.string "ap")]) false =
        some ("SELECT name FROM cmip5 WHERE name REGEXP \x27^ap\x27;", true) ∧
      (exampleEnv none).performQuery "SELECT name FROM cmip5 WHERE name REGEXP \x27^ap\x27;" =
        none) ∧
    ∃ ack : Data,
      runJsonQuery (exampleEnv none) exampleInterest exampleAdapter =
        ({ exampleAdapter with
            m_activeQueryToFirstResponse :=
              exampleAdapter.m_activeQueryToFirstResponse ++
                [((Component.mk "\x7b\"?\":\"ap\"\x7d").value, ack)]
            facePut := exampleAdapter.facePut ++ [ack]
            sqlExecuted := exampleAdapter.sqlExecuted ++
              ["SELECT name FROM cmip5 WHERE name REGEXP \x27^ap\x27;"] }, none) ∧
      (runJsonQuery (exampleEnv none) exampleInterest exampleAdapter).1.m_cache =
        exampleAdapter.m_cache ∧
      (runJsonQuery (exampleEnv none) exampleInterest
        exampleAdapter).1.m_activeQueryToFirstResponse.lookup
          (Component.mk "\x7b\"?\":\"ap\"\x7d").value = some ack ∧
      ∀ env2 : Env,
        runJsonQuery env2 exampleInterest
            (runJsonQuery (exampleEnv none) exampleInterest exampleAdapter).1 =
          ({ (runJsonQuery (exampleEnv none) exampleInterest exampleAdapter).1 with
              facePut := (runJsonQuery (exampleEnv none) exampleInterest
                exampleAdapter).1.facePut ++ [ack] }, none) :=
  ⟨⟨rfl, by decide, rfl⟩,
    runJsonQuery_backend_failure (exampleEnv none) exampleInterest exampleAdapter
      [Component.mk "catalog", Component.mk "lap", Component.mk "query"]
      (Component.mk "\x7b\"?\":\"ap\"\x7d")
      (Json.Value.object [("?", Json.Value.string "ap")])
      "SELECT name FROM cmip5 WHERE name REGEXP \x27^ap\x27;" true
      rfl rfl (by decide) rfl rfl (by decide) rfl⟩

end atmos

namespace atmos

open ndn

/-- C20: the map only grows and never overwrites.  A key that is present stays
present with the same ACK through `runJsonQuery`, `prepareSegments` and
`onQueryResultsInterest`; and `runJsonQuery` either leaves the map as it was or
adds one entry for a key that was absent. -/
theorem registry_only_grows (s : QueryAdapter) (jsonQuery : String) (ack : Data)
    (h : s.m_activeQueryToFirstResponse.lookup jsonQuery = some ack) :
    (∀ (env : Env) (interest : Interest),
      (runJsonQuery env interest s).1.m_activeQueryToFirstResponse.lookup jsonQuery =
        some ack) ∧
    (∀ (env : Env) (segmentPrefix : Name) (sqlString : String) (autocomplete : Bool),
      (prepareSegments env segmentPrefix sqlString autocomplete
        s).m_activeQueryToFirstResponse.lookup jsonQuery = some ack) ∧
    (∀ (env : Env) (interest : Interest),
      (onQueryResultsInterest env interest s).m_activeQueryToFirstResponse.lookup jsonQuery =
        some ack) ∧
    (∀ (env : Env) (interest : Interest),
      (runJsonQuery env interest s).1.m_activeQueryToFirstResponse =
          s.m_activeQueryToFirstResponse ∨
        ∃ (key : String) (first : Data),
          s.m_activeQueryToFirstResponse.lookup key = none ∧
          (runJsonQuery env interest s).1.m_activeQueryToFirstResponse =
            s.m_activeQueryToFirstResponse ++ [(key, first)]) := by
  have hrun : ∀ (env : Env) (interest : Interest),
      (runJsonQuery env interest s).1.m_activeQueryToFirstResponse =
          s.m_activeQueryToFirstResponse ∨
        ∃ (key : String) (first : Data),
          s.m_activeQueryToFirstResponse.lookup key = none ∧
          (runJsonQuery env interest s).1.m_activeQueryToFirstResponse =
            s.m_activeQueryToFirstResponse ++ [(key, first)] := by
    intro env interest
    rcases runJsonQuery_cases env interest s with
      e | ⟨c, a, _, _, _, e⟩ | ⟨c, v, h1, h2, h3, h4⟩
    · left; rw [e]
    · left; rw [e]
    · right
      exact ⟨c.value, _, h3, (runJsonQuery_fresh env interest s c v h1 h2 h3 h4).2.2.1⟩
  refine ⟨?_, ?_, ?_, hrun⟩
  · intro env interest
    rcases hrun env interest with e | ⟨key, first, _, e⟩
    · rw [e]; exact h
    · rw [e]; exact lookup_append_old _ _ _ _ h
  · intro env segmentPrefix sqlString autocomplete
    rw [(prepareSegments_frame env segmentPrefix sqlString autocomplete s).2.2.1]
    exact h
  · intro env interest
    unfold onQueryResultsInterest
    split <;> exact h

/-- Witness of C20: the adapter that has answered `exampleInterest` holds the
ACK of that query. -/
theorem registry_only_grows_witness :
    exampleAnswered.m_activeQueryToFirstResponse.lookup "\x7b\"?\":\"ap\"\x7d" =
      some (makeAckData exampleAdapter exampleInterest
        ((exampleEnv (some ["apple", "apricot"])).fromVersion 7)) ∧
    ((∀ (env : Env) (interest : Interest),
      (runJsonQuery env interest exampleAnswered).1.m_activeQueryToFirstResponse.lookup
        "\x7b\"?\":\"ap\"\x7d" =
        some (makeAckData exampleAdapter exampleInterest
          ((exampleEnv (some ["apple", "apricot"])).fromVersion 7))) ∧
    (∀ (env : Env) (segmentPrefix : Name) (sqlString : String) (autocomplete : Bool),
      (prepareSegments env segmentPrefix sqlString autocomplete
        exampleAnswered).m_activeQueryToFirstResponse.lookup "\x7b\"?\":\"ap\"\x7d" =
        some (makeAckData exampleAdapter exampleInterest
          ((exampleEnv (some ["apple", "apricot"])).fromVersion 7))) ∧
    (∀ (env : Env) (interest : Interest),
      (onQueryResultsInterest env interest
        exampleAnswered).m_activeQueryToFirstResponse.lookup "\x7b\"?\":\"ap\"\x7d" =
        some (makeAckData exampleAdapter exampleInterest
          ((exampleEnv (some ["apple", "apricot"])).fromVersion 7))) ∧
    (∀ (env : Env) (interest : Interest),
      (runJsonQuery env interest exampleAnswered).1.m_activeQueryToFirstResponse =
          exampleAnswered.m_activeQueryToFirstResponse ∨
        ∃ (key : String) (first : Data),
          exampleAnswered.m_activeQueryToFirstResponse.lookup key = none ∧
          (runJsonQuery env interest exampleAnswered).1.m_activeQueryToFirstResponse =
            exampleAnswered.m_activeQueryToFirstResponse ++ [(key, first)])) :=
  ⟨by decide,
    registry_only_grows exampleAnswered "\x7b\"?\":\"ap\"\x7d"
      (makeAckData exampleAdapter exampleInterest
        ((exampleEnv (some ["apple", "apricot"])).fromVersion 7)) (by decide)⟩

end atmos

namespace atmos

open ndn

/-- C21: the filter that `setFilters` registers for queries is `m_prefix/query`;
an Interest that passes the arity check of `onQueryInterest` for that filter has
exactly `|m_prefix| + 2` components, so the component at index `|m_prefix| + 1`
that `runJsonQuery` reads exists and is the last one; `onQueryInterest` never
ends by the out-of-range fault. -/
theorem onQueryInterest_index_in_range (env : Env) (interest : Interest) (s : QueryAdapter)
    (harity : interest.name.length = (Name.append s.m_prefix "query").length + 1) :
    Name.append s.m_prefix "query" ∈ (setFilters s).m_registeredPrefixList ∧
    interest.name.length = s.m_prefix.length + 2 ∧
    (∃ jsonStr, interest.name[ s.m_prefix.length + 1]? = some jsonStr ∧
      interest.name.getLast? = some jsonStr) ∧
    (runJsonQuery env interest s).2 ≠ some Fault.nameIndexOutOfRange ∧
    (∀ (other : Interest),
      (onQueryInterest env (Name.append s.m_prefix "query") other s).2 ≠
        some Fault.nameIndexOutOfRange) := by
  have hrun : ∀ (i : Interest), i.name.length = s.m_prefix.length + 2 →
      (runJsonQuery env i s).2 ≠ some Fault.nameIndexOutOfRange := by
    intro i hi
    have hlt : s.m_prefix.length + 1 < i.name.length := by omega
    have hget : i.name[ s.m_prefix.length + 1]? = some (i.name[ s.m_prefix.length + 1]) :=
      List.getElem?_eq_getElem hlt
    rcases runJsonQuery_cases env i s with e | ⟨c, a, _, _, _, e⟩ | ⟨c, v, h1, h2, h3, h4⟩
    · by_cases hlen : 0 < byteLength (i.name[ s.m_prefix.length + 1]).value
      · cases hreg : s.m_activeQueryToFirstResponse.lookup
            (i.name[ s.m_prefix.length + 1]).value with
        | some ack =>
          rw [runJsonQuery_replay env i s _ ack hget hlen hreg]; simp
        | none =>
          cases hparse : env.parse (i.name[ s.m_prefix.length + 1]).value with
          | none => simp [runJsonQuery, hget, Nat.not_le.mpr hlen, hreg, hparse]
          | some v =>
            rw [runJsonQuery_fresh_steps env i s _ v hget hlen hreg hparse]
            cases json2Sql "" v false <;> simp
      · simp [runJsonQuery, hget, Nat.le_of_not_lt hlen]
    · rw [e]; simp
    · rw [runJsonQuery_fresh_steps env i s c v h1 h2 h3 h4]
      cases json2Sql "" v false <;> simp
  have hlen : interest.name.length = s.m_prefix.length + 2 := by
    simpa [Name.append] using harity
  refine ⟨by simp [setFilters, registerPrefix_mem], hlen, ?_, hrun interest hlen, ?_⟩
  · have hlt : s.m_prefix.length + 1 < interest.name.length := by omega
    refine ⟨interest.name[ s.m_prefix.length + 1], List.getElem?_eq_getElem hlt, ?_⟩
    rw [List.getLast?_eq_getElem?, hlen]
    exact List.getElem?_eq_getElem hlt
  · intro other
    unfold onQueryInterest
    split
    · simp
    · rename_i hne
      have : other.name.length = s.m_prefix.length + 2 := by
        have := not_not.mp hne
        simpa [Name.append] using this
      exact hrun other this

/-- Witness of C21: `exampleInterest` at the freshly configured adapter. -/
theorem onQueryInterest_index_in_range_witness :
    exampleInterest.name.length = (Name.append exampleAdapter.m_prefix "query").length + 1 ∧
    (Name.append exampleAdapter.m_prefix "query" ∈
        (setFilters exampleAdapter).m_registeredPrefixList ∧
    exampleInterest.name.length = exampleAdapter.m_prefix.length + 2 ∧
    (∃ jsonStr, exampleInterest.name[ exampleAdapter.m_prefix.length + 1]? = some jsonStr ∧
      exampleInterest.name.getLast? = some jsonStr) ∧
    (runJsonQuery (exampleEnv none) exampleInterest exampleAdapter).2 ≠
      some Fault.nameIndexOutOfRange ∧
    (∀ (other : Interest),
      (onQueryInterest (exampleEnv none) (Name.append exampleAdapter.m_prefix "query") other
        exampleAdapter).2 ≠ some Fault.nameIndexOutOfRange)) :=
  ⟨rfl, onQueryInterest_index_in_range (exampleEnv none) exampleInterest exampleAdapter rfl⟩

end atmos

namespace atmos

open ndn

/-- With a row already in the buffer no group of `splitRows` is empty. -/
theorem splitRows_nonempty : ∀ (rows cur : List String), cur ≠ [] →
    ∀ g ∈ (splitRows rows cur).1 ++ [(splitRows rows cur).2], g ≠ [] := by
  intro rows
  induction rows with
  | nil => intro cur hc g hg; simp [splitRows] at hg; rw [hg]; exact hc
  | cons r rest ih =>
    intro cur hc g hg
    by_cases h : payloadBytes cur + (strlen r + 1) > PAYLOAD_LIMIT
    · simp only [splitRows, h, if_true, List.cons_append, List.mem_cons] at hg
      rcases hg with hg | hg
      · rw [hg]; exact hc
      · exact ih [r] (by simp) g hg
    · simp only [splitRows, h, if_false] at hg
      exact ih (cur ++ [r]) (by simp) g hg

/-- For a non-empty row sequence whose first row fits, no group is empty. -/
theorem splitRows_nonempty_of_fit (rows : List String) (hne : rows ≠ [])
    (hrows : ∀ r ∈ rows, strlen r + 1 ≤ PAYLOAD_LIMIT) :
    ∀ g ∈ (splitRows rows []).1 ++ [(splitRows rows []).2], g ≠ [] := by
  cases rows with
  | nil => exact absurd rfl hne
  | cons r rest =>
    have hr := hrows r (List.mem_cons_self _ _)
    have hno : ¬ payloadBytes [] + (strlen r + 1) > PAYLOAD_LIMIT := by
      have : payloadBytes [] = 0 := rfl
      omega
    have hs : splitRows (r :: rest) [] = splitRows rest [r] := by
      simp only [splitRows, hno, if_false, List.nil_append]
    rw [hs]
    exact splitRows_nonempty rest [r] (by simp)

theorem length_le_flatten_length : ∀ (gs : List (List String)), (∀ g ∈ gs, g ≠ []) →
    gs.length ≤ gs.flatten.length := by
  intro gs
  induction gs with
  | nil => intro _; simp
  | cons g gs ih =>
    intro h
    have hg : g ≠ [] := h g (List.mem_cons_self _ _)
    have hpos : 0 < g.length := List.length_pos.mpr hg
    have := ih (fun x hx => h x (List.mem_cons_of_mem _ hx))
    simp only [List.length_cons, List.flatten_cons, List.length_append]
    omega

end atmos

namespace atmos

open ndn

theorem runJsonQuery_m_prefix (env : Env) (interest : Interest) (s : QueryAdapter) :
    QueryAdapter.m_prefix (runJsonQuery env interest s).1 = s.m_prefix := by
  rcases runJsonQuery_cases env interest s with e | ⟨c, a, _, _, _, e⟩ | ⟨c, v, h1, h2, h3, h4⟩
  · rw [e]
  · rw [e]
  · exact (runJsonQuery_fresh env interest s c v h1 h2 h3 h4).1

end atmos

/-! ## What the cached segments carry -/

namespace atmos

open ndn

/-- A Data whose content is the text of the buffer that holds a group of rows
carries the C strings of these rows. -/
theorem carries_buffer (isAutocomplete : Bool) (d : Data) (g : List String)
    (h : d.content = segmentText isAutocomplete (bufferValue g)) :
    Carries isAutocomplete d (g.map cstr) := by
  cases g with
  | nil => exact Or.inr ⟨rfl, h⟩
  | cons c cs => exact Or.inl (by rw [h, bufferValue_cons])

theorem nonFinalSegments_forall₂ (env : Env) (s : QueryAdapter) (segmentPrefix : Name)
    (autocomplete : Bool) (P : Data → List String → Prop)
    (hP : ∀ (g : List String) (n : Nat) (fin : Bool),
      P (makeReplyData env s segmentPrefix (bufferValue g) n fin autocomplete) g) :
    ∀ (gs : List (List String)) (n : Nat),
      List.Forall₂ P (nonFinalSegments env s segmentPrefix autocomplete n (gs.map bufferValue))
        gs := by
  intro gs
  induction gs with
  | nil => intro n; exact List.Forall₂.nil
  | cons g gs ih => intro n; exact List.Forall₂.cons (hP g n false) (ih (n + 1))

/-- What holds of every segment built from the buffer of a group holds, group
by group, of the segments that a run of `prepareSegments` inserts for the
groups of `splitRows`. -/
theorem prepareSegments_groups (env : Env) (segmentPrefix : Name) (sqlString : String)
    (autocomplete : Bool) (s : QueryAdapter) (rows : List String)
    (h : env.performQuery sqlString = some rows) (P : Data → List String → Prop)
    (hP : ∀ (g : List String) (n : Nat) (fin : Bool),
      P (makeReplyData env s segmentPrefix (bufferValue g) n fin autocomplete) g) :
    ∃ inserted : List Data,
      (prepareSegments env segmentPrefix sqlString autocomplete s).m_cache =
        s.m_cache ++ inserted ∧
      List.Forall₂ P inserted ((splitRows rows []).1 ++ [(splitRows rows []).2]) ∧
      inserted.map Data.name =
        (List.range inserted.length).map (fun i => segmentPrefix ++ [env.fromSegment i]) := by
  refine ⟨runSegments env s segmentPrefix autocomplete
    ((splitRows rows []).1.map bufferValue) (bufferValue (splitRows rows []).2), ?_, ?_, ?_⟩
  · rw [prepareSegments_eq env segmentPrefix sqlString autocomplete s rows h]
  · exact List.rel_append
      (nonFinalSegments_forall₂ env s segmentPrefix autocomplete P hP (splitRows rows []).1 0)
      (List.Forall₂.cons (hP _ _ true) List.Forall₂.nil)
  · rw [runSegments_names]
    simp [runSegments, nonFinalSegments_length]

theorem map_cstr_groups (groups : List (List String))
    (h : ∀ r ∈ groups.flatten, Char.ofNat 0 ∉ r.data) :
    groups.map (List.map cstr) = groups := by
  induction groups with
  | nil => rfl
  | cons g gs ih =>
    have hg : g.map cstr = g := by
      have : ∀ r ∈ g, cstr r = id r := fun r hr =>
        cstr_eq_self r (h r (by simp [hr]))
      rw [List.map_congr_left this, List.map_id]
    have hgs : ∀ r ∈ gs.flatten, Char.ofNat 0 ∉ r.data := by
      intro r hr
      apply h r
      simp only [List.flatten_cons, List.mem_append]
      exact Or.inr hr
    rw [List.map_cons, hg, ih hgs]

/-- C1 (as amended): for every row sequence returned by the backend there are
groups of rows that concatenate to exactly the row sequence such that the
segments which `prepareSegments` inserts into the cache carry, one by one in
insertion order, the rows of these groups read as C strings (each row up to its
first NUL byte): the content of each segment is the one-member object around
the JSON array of these names.  When no row contains a NUL byte the segments
carry the rows themselves: same rows, same order, none dropped, none
duplicated.  The segments are numbered from 0 in insertion order. -/
theorem prepareSegments_reproduces_rows (env : Env) (segmentPrefix : Name)
    (sqlString : String) (autocomplete : Bool) (s : QueryAdapter) (rows : List String)
    (h : env.performQuery sqlString = some rows) :
    ∃ (inserted : List Data) (groups : List (List String)),
      (prepareSegments env segmentPrefix sqlString autocomplete s).m_cache =
        s.m_cache ++ inserted ∧
      groups.flatten = rows ∧
      List.Forall₂ (fun d g => Carries autocomplete d (g.map cstr)) inserted groups ∧
      ((∀ r ∈ rows, Char.ofNat 0 ∉ r.data) →
        List.Forall₂ (Carries autocomplete) inserted groups) ∧
      inserted.map Data.name =
        (List.range inserted.length).map (fun i => segmentPrefix ++ [env.fromSegment i]) := by
  have hpay : ∀ (g : List String) (n : Nat) (fin : Bool),
      Carries autocomplete
        (makeReplyData env s segmentPrefix (bufferValue g) n fin autocomplete)
        (g.map cstr) := by
    intro g n fin
    apply carries_buffer
    have h1 : Json.valueToQuotedString "next" = "\"next\"" := by decide
    have h2 : Json.valueToQuotedString "results" = "\"results\"" := by decide
    cases autocomplete <;>
      simp only [makeReplyData, signData, segmentText, Json.FastWriter.write, Json.writeValue,
        Json.writeMembers, h1, h2, if_true, if_false] <;>
      apply String.ext <;>
      simp [String.data_append, h1, h2]
  obtain ⟨inserted, hc, hf, hnames⟩ :=
    prepareSegments_groups env segmentPrefix sqlString autocomplete s rows h
      (fun d g => Carries autocomplete d (g.map cstr)) hpay
  have hfl : ((splitRows rows []).1 ++ [(splitRows rows []).2]).flatten = rows := by
    simpa using splitRows_flatten rows []
  refine ⟨inserted, _, hc, hfl, hf, ?_, hnames⟩
  intro hnul
  have hm := map_cstr_groups ((splitRows rows []).1 ++ [(splitRows rows []).2])
    (by rw [hfl]; exact hnul)
  have := (List.forall₂_map_right_iff (R := Carries autocomplete) (f := List.map cstr)).mpr hf
  rwa [hm] at this

/-- Witness of C1: rows `a`, `bb`; the one segment has the content
`{"results":["a","bb"]}`, line feed and NUL. -/
theorem prepareSegments_reproduces_rows_witness :
    (exampleEnv (some ["a", "bb"])).performQuery "q" = some ["a", "bb"] ∧
    (∃ (inserted : List Data) (groups : List (List String)),
      (prepareSegments (exampleEnv (some ["a", "bb"])) examplePrefix "q" false
          exampleAdapter).m_cache = exampleAdapter.m_cache ++ inserted ∧
      groups.flatten = ["a", "bb"] ∧
      List.Forall₂ (fun d g => Carries false d (g.map cstr)) inserted groups ∧
      ((∀ r ∈ (["a", "bb"] : List String), Char.ofNat 0 ∉ r.data) →
        List.Forall₂ (Carries false) inserted groups) ∧
      inserted.map Data.name =
        (List.range inserted.length).map
          (fun i => examplePrefix ++ [(exampleEnv (some ["a", "bb"])).fromSegment i])) ∧
    (prepareSegments (exampleEnv (some ["a", "bb"])) examplePrefix "q" false
        exampleAdapter).m_cache.map (fun d => d.content) =
      ["\x7b\"results\":[\"a\",\"bb\"]\x7d\n\x00"] :=
  ⟨rfl, prepareSegments_reproduces_rows (exampleEnv (some ["a", "bb"])) examplePrefix "q"
    false exampleAdapter ["a", "bb"] rfl, by decide⟩

/-- C1 as stated fails: for the single row `a`, NUL, `b` the one segment that
`prepareSegments` inserts has the content `{"results":["a"]}`, line feed and
NUL: the bytes of the row from its NUL byte on are dropped, and the inserted
segments do not carry the row sequence. -/
theorem prepareSegments_truncates_row :
    (prepareSegments (exampleEnv (some [nulRow])) examplePrefix "q" false
        exampleAdapter).m_cache.map (fun d => d.content) =
      ["\x7b\"results\":[\"a\"]\x7d\n\x00"] ∧
    ¬ ∃ (inserted : List Data) (groups : List (List String)),
      (prepareSegments (exampleEnv (some [nulRow])) examplePrefix "q" false
          exampleAdapter).m_cache = exampleAdapter.m_cache ++ inserted ∧
      groups.flatten = [nulRow] ∧
      List.Forall₂ (Carries false) inserted groups := by
  refine ⟨by decide, ?_⟩
  rintro ⟨inserted, groups, hc, hflat, hf⟩
  have hcache : (prepareSegments (exampleEnv (some [nulRow])) examplePrefix "q" false
      exampleAdapter).m_cache =
      [makeReplyData (exampleEnv (some [nulRow])) exampleAdapter examplePrefix
        (Json.Value.array [Json.Value.string "a"]) 0 true false] := rfl
  rw [hcache] at hc
  have hi : inserted = [makeReplyData (exampleEnv (some [nulRow])) exampleAdapter
      examplePrefix (Json.Value.array [Json.Value.string "a"]) 0 true false] := by
    simpa [exampleAdapter, QueryAdapter.configured] using hc.symm
  subst hi
  cases hf with
  | cons h1 h2 =>
    cases h2
    simp only [List.flatten_cons, List.flatten_nil, List.append_nil] at hflat
    subst hflat
    rcases h1 with h1 | ⟨h1, -⟩
    · revert h1; decide
    · exact absurd h1 (by simp)

end atmos

namespace atmos

open ndn

/-- C2 (as amended): when every row has `strlen + 1 <= PAYLOAD_LIMIT`, there are
groups of rows that concatenate to the row sequence such that the segments
which `prepareSegments` inserts carry, one by one in insertion order, the rows
of these groups (as C strings), each group fits within `PAYLOAD_LIMIT`, and
each group but the last is followed by a row that would exceed the limit: every
segment holds the maximum fitting prefix of the rows not yet emitted. -/
theorem prepareSegments_maximal_fit (env : Env) (segmentPrefix : Name)
    (sqlString : String) (autocomplete : Bool) (s : QueryAdapter) (rows : List String)
    (h : env.performQuery sqlString = some rows)
    (hrows : ∀ r ∈ rows, strlen r + 1 ≤ PAYLOAD_LIMIT) :
    ∃ (inserted : List Data) (groups : List (List String)),
      (prepareSegments env segmentPrefix sqlString autocomplete s).m_cache =
        s.m_cache ++ inserted ∧
      groups.flatten = rows ∧
      List.Forall₂ (fun d g => Carries autocomplete d (g.map cstr)) inserted groups ∧
      MaximalFit groups := by
  have hpay : ∀ (g : List String) (n : Nat) (fin : Bool),
      Carries autocomplete
        (makeReplyData env s segmentPrefix (bufferValue g) n fin autocomplete)
        (g.map cstr) := by
    intro g n fin
    apply carries_buffer
    have h1 : Json.valueToQuotedString "next" = "\"next\"" := by decide
    have h2 : Json.valueToQuotedString "results" = "\"results\"" := by decide
    cases autocomplete <;>
      simp only [makeReplyData, signData, segmentText, Json.FastWriter.write, Json.writeValue,
        Json.writeMembers, h1, h2, if_true, if_false] <;>
      apply String.ext <;>
      simp [String.data_append, h1, h2]
  obtain ⟨inserted, hc, hf, hnames⟩ :=
    prepareSegments_groups env segmentPrefix sqlString autocomplete s rows h
      (fun d g => Carries autocomplete d (g.map cstr)) hpay
  refine ⟨inserted, _, hc, ?_, hf, ?_, ?_⟩
  · simpa using splitRows_flatten rows []
  · exact splitRows_fit rows [] (by decide) hrows
  · exact splitRows_chain rows []

/-- Witness of C2: 3000 rows of five bytes each give three segments, which carry
1166, 1166 and 668 rows. -/
theorem prepareSegments_maximal_fit_witness :
    ((exampleEnv (some (List.replicate 3000 "aaaaa"))).performQuery "q" =
        some (List.replicate 3000 "aaaaa") ∧
      ∀ r ∈ List.replicate 3000 "aaaaa", strlen r + 1 ≤ PAYLOAD_LIMIT) ∧
    (∃ (inserted : List Data) (groups : List (List String)),
      (prepareSegments (exampleEnv (some (List.replicate 3000 "aaaaa"))) examplePrefix "q"
          false exampleAdapter).m_cache = exampleAdapter.m_cache ++ inserted ∧
      groups.flatten = List.replicate 3000 "aaaaa" ∧
      List.Forall₂ (fun d g => Carries false d (g.map cstr)) inserted groups ∧
      MaximalFit groups) ∧
    List.Forall₂ (Carries false)
      (prepareSegments (exampleEnv (some (List.replicate 3000 "aaaaa"))) examplePrefix "q"
        false exampleAdapter).m_cache
      [List.replicate 1166 "aaaaa", List.replicate 1166 "aaaaa",
       List.replicate 668 "aaaaa"] := by
  have hr : ∀ r ∈ List.replicate 3000 "aaaaa", strlen r + 1 ≤ PAYLOAD_LIMIT := by
    intro r hr
    rw [List.eq_of_mem_replicate hr]
    decide
  refine ⟨⟨rfl, hr⟩, ?_, ?_⟩
  · exact prepareSegments_maximal_fit (exampleEnv (some (List.replicate 3000 "aaaaa")))
      examplePrefix "q" false exampleAdapter (List.replicate 3000 "aaaaa") rfl hr
  · obtain ⟨inserted, hc, hf, hnames⟩ :=
      prepareSegments_groups (exampleEnv (some (List.replicate 3000 "aaaaa")))
        examplePrefix "q" false exampleAdapter (List.replicate 3000 "aaaaa") rfl
        (fun d g => Carries false d (g.map cstr))
        (fun g n fin => carries_buffer false _ g (makeReplyData_payload _ _ _ _ n fin false))
    rw [splitRows_replicate_3000 "aaaaa" (by decide)] at hf
    have hi : (prepareSegments (exampleEnv (some (List.replicate 3000 "aaaaa")))
        examplePrefix "q" false exampleAdapter).m_cache = inserted := by
      rw [hc]; rfl
    rw [hi]
    have hcs : cstr "aaaaa" = "aaaaa" := by decide
    have hm : ([List.replicate 1166 "aaaaa", List.replicate 1166 "aaaaa"] ++
        [List.replicate 668 "aaaaa"]).map (List.map cstr) =
        [List.replicate 1166 "aaaaa", List.replicate 1166 "aaaaa",
          List.replicate 668 "aaaaa"] := by
      simp only [List.map_cons, List.map_nil, List.cons_append, List.nil_append,
        List.map_replicate, hcs]
    have := (List.forall₂_map_right_iff (R := Carries false) (f := List.map cstr)).mpr hf
    rwa [hm] at this

/-- C2 as stated fails: a single row of 7000 bytes (`strlen + 1 = 7001`) makes
`prepareSegments` flush the empty buffer as segment 0, which carries no name,
and put the row alone into the final segment 1, which exceeds `PAYLOAD_LIMIT`;
no grouping of the rows fits. -/
theorem prepareSegments_long_row :
    (prepareSegments (exampleEnv (some [longRow])) examplePrefix "q" false
        exampleAdapter).m_cache =
      [makeReplyData (exampleEnv (some [longRow])) exampleAdapter examplePrefix
          Json.Value.null 0 false false,
       makeReplyData (exampleEnv (some [longRow])) exampleAdapter examplePrefix
          (Json.Value.array [Json.Value.string longRow]) 1 true false] ∧
    List.Forall₂ (Carries false)
      (prepareSegments (exampleEnv (some [longRow])) examplePrefix "q" false
        exampleAdapter).m_cache [[], [longRow]] ∧
    payloadBytes [longRow] = 7001 ∧
    ¬ ∃ (inserted : List Data) (groups : List (List String)),
      (prepareSegments (exampleEnv (some [longRow])) examplePrefix "q" false
          exampleAdapter).m_cache = exampleAdapter.m_cache ++ inserted ∧
      groups.flatten = [longRow] ∧
      List.Forall₂ (fun d g => Carries false d (g.map cstr)) inserted groups ∧
      MaximalFit groups := by
  have hcs : cstr longRow = longRow :=
    cstr_eq_self longRow (fun hm => by
      have := List.eq_of_mem_replicate hm
      revert this; decide)
  have hlen : strlen longRow = 7000 := strlen_replicate 7000
  have hp : payloadBytes [longRow] = 7001 := by rw [payloadBytes_singleton, hlen]
  have hcache : (prepareSegments (exampleEnv (some [longRow])) examplePrefix "q" false
      exampleAdapter).m_cache =
      [makeReplyData (exampleEnv (some [longRow])) exampleAdapter examplePrefix
          Json.Value.null 0 false false,
       makeReplyData (exampleEnv (some [longRow])) exampleAdapter examplePrefix
          (Json.Value.array [Json.Value.string longRow]) 1 true false] := by
    rw [prepareSegments_eq (exampleEnv (some [longRow])) examplePrefix "q" false
      exampleAdapter [longRow] rfl]
    have hs : splitRows [longRow] [] = ([[]], [longRow]) := by
      have : payloadBytes [] + (strlen longRow + 1) > PAYLOAD_LIMIT := by
        rw [hlen]; decide
      simp only [splitRows, this, if_true]
    rw [hs]
    have hb : bufferValue [longRow] = Json.Value.array [Json.Value.string longRow] := by
      rw [bufferValue_cons]; simp [hcs]
    simp only [List.map_cons, List.map_nil, hb]
    rfl
  refine ⟨hcache, ?_, hp, ?_⟩
  · rw [hcache]
    refine List.Forall₂.cons (Or.inr ⟨rfl, ?_⟩) (List.Forall₂.cons (Or.inl ?_) List.Forall₂.nil)
    · rw [makeReplyData_payload]; rfl
    · rw [makeReplyData_payload]; rfl
  · rintro ⟨inserted, groups, -, hflat, -, hfit, -⟩
    have hmem : longRow ∈ groups.flatten := by rw [hflat]; simp
    obtain ⟨g, hg, hin⟩ := List.mem_flatten.mp hmem
    have hle := hfit g hg
    have hge : strlen longRow + 1 ≤ payloadBytes g := by
      unfold payloadBytes
      exact List.single_le_sum (fun _ _ => Nat.zero_le _) _
        (List.mem_map.mpr ⟨longRow, hin, rfl⟩)
    rw [hlen] at hge
    have : PAYLOAD_LIMIT = 7000 := rfl
    omega

end atmos

namespace atmos

open ndn

/-- C22: for a non-empty row sequence in which every row has
`strlen + 1 <= PAYLOAD_LIMIT`, every segment that `prepareSegments` inserts,
final or not, carries the rows of a group that is not empty and counts at most
`PAYLOAD_LIMIT` (its content is the one-member object around the JSON array of
at least one name); the groups concatenate to the row sequence and there are at
most as many segments as rows; and after any number of rows have been fetched
the variable `usedBytes` is the sum of `strlen + 1` over the rows that the
buffer `array` holds. -/
theorem prepareSegments_no_empty_segment (env : Env) (segmentPrefix : Name)
    (sqlString : String) (autocomplete : Bool) (s : QueryAdapter) (rows : List String)
    (h : env.performQuery sqlString = some rows)
    (hne : rows ≠ [])
    (hrows : ∀ r ∈ rows, strlen r + 1 ≤ PAYLOAD_LIMIT) :
    (∃ (inserted : List Data) (groups : List (List String)),
      (prepareSegments env segmentPrefix sqlString autocomplete s).m_cache =
        s.m_cache ++ inserted ∧
      groups.flatten = rows ∧
      List.Forall₂
        (fun d g => g ≠ [] ∧ payloadBytes g ≤ PAYLOAD_LIMIT ∧
          d.content = segmentText autocomplete
            (Json.Value.array ((g.map cstr).map Json.Value.string)))
        inserted groups ∧
      inserted.length ≤ rows.length) ∧
    (∀ fetched : Nat, ∃ buffered : List String,
      (prepareSegmentsLoop env segmentPrefix autocomplete (rows.take fetched)
        { usedBytes := 0, segmentNo := 0, array := Json.Value.null }
        s).1.array.elements = (buffered.map cstr).map Json.Value.string ∧
      (prepareSegmentsLoop env segmentPrefix autocomplete (rows.take fetched)
        { usedBytes := 0, segmentNo := 0, array := Json.Value.null }
        s).1.usedBytes = payloadBytes buffered) := by
  have hpay : ∀ (g : List String) (n : Nat) (fin : Bool),
      Carries autocomplete
        (makeReplyData env s segmentPrefix (bufferValue g) n fin autocomplete)
        (g.map cstr) := by
    intro g n fin
    apply carries_buffer
    have h1 : Json.valueToQuotedString "next" = "\"next\"" := by decide
    have h2 : Json.valueToQuotedString "results" = "\"results\"" := by decide
    cases autocomplete <;>
      simp only [makeReplyData, signData, segmentText, Json.FastWriter.write, Json.writeValue,
        Json.writeMembers, h1, h2, if_true, if_false] <;>
      apply String.ext <;>
      simp [String.data_append, h1, h2]
  constructor
  · obtain ⟨inserted, hc, hf, hnames⟩ :=
      prepareSegments_groups env segmentPrefix sqlString autocomplete s rows h
      (fun d g => Carries autocomplete d (g.map cstr)) hpay
    have hn := splitRows_nonempty_of_fit rows hne hrows
    have hfit := splitRows_fit rows [] (by decide) hrows
    have hfl : ((splitRows rows []).1 ++ [(splitRows rows []).2]).flatten = rows := by
      simpa using splitRows_flatten rows []
    refine ⟨inserted, _, hc, hfl, ?_, ?_⟩
    · clear hc hnames
      revert hn hfit hf
      generalize (splitRows rows []).1 ++ [(splitRows rows []).2] = groups
      intro hf hn hfit
      induction hf with
      | nil => exact List.Forall₂.nil
      | @cons d g ds gs hdg _ ih =>
        have hg : g ≠ [] := hn g (List.mem_cons_self _ _)
        refine List.Forall₂.cons ⟨hg, hfit g (List.mem_cons_self _ _), ?_⟩
          (ih (fun x hx => hn x (List.mem_cons_of_mem _ hx))
            (fun x hx => hfit x (List.mem_cons_of_mem _ hx)))
        rcases hdg with hdg | ⟨he, -⟩
        · exact hdg
        · exact absurd (List.map_eq_nil_iff.mp he) hg
    · have hl := length_le_flatten_length _ hn
      rw [hfl] at hl
      rw [List.Forall₂.length_eq hf]
      exact hl
  · intro fetched
    have hl := prepareSegmentsLoop_eq env segmentPrefix autocomplete (rows.take fetched) [] 0 s
    have hp : payloadBytes [] = 0 := rfl
    rw [hp, bufferValue_nil] at hl
    refine ⟨(splitRows (rows.take fetched) []).2, ?_, ?_⟩
    · rw [hl]; exact bufferValue_elements _
    · rw [hl]

/-- Witness of C22: rows `a`, `bb`. -/
theorem prepareSegments_no_empty_segment_witness :
    ((exampleEnv (some ["a", "bb"])).performQuery "q" = some ["a", "bb"] ∧
      (["a", "bb"] : List String) ≠ [] ∧
      ∀ r ∈ (["a", "bb"] : List String), strlen r + 1 ≤ PAYLOAD_LIMIT) ∧
    ((∃ (inserted : List Data) (groups : List (List String)),
      (prepareSegments (exampleEnv (some ["a", "bb"])) examplePrefix "q" false
          exampleAdapter).m_cache = exampleAdapter.m_cache ++ inserted ∧
      groups.flatten = ["a", "bb"] ∧
      List.Forall₂
        (fun d g => g ≠ [] ∧ payloadBytes g ≤ PAYLOAD_LIMIT ∧
          d.content = segmentText false
            (Json.Value.array ((g.map cstr).map Json.Value.string)))
        inserted groups ∧
      inserted.length ≤ (["a", "bb"] : List String).length) ∧
    (∀ fetched : Nat, ∃ buffered : List String,
      (prepareSegmentsLoop (exampleEnv (some ["a", "bb"])) examplePrefix false
        ((["a", "bb"] : List String).take fetched)
        { usedBytes := 0, segmentNo := 0, array := Json.Value.null }
        exampleAdapter).1.array.elements = (buffered.map cstr).map Json.Value.string ∧
      (prepareSegmentsLoop (exampleEnv (some ["a", "bb"])) examplePrefix false
        ((["a", "bb"] : List String).take fetched)
        { usedBytes := 0, segmentNo := 0, array := Json.Value.null }
        exampleAdapter).1.usedBytes = payloadBytes buffered)) ∧
    (prepareSegments (exampleEnv (some ["a", "bb"])) examplePrefix "q" true
        exampleAdapter).m_cache.map (fun d => d.content) =
      ["\x7b\"next\":[\"a\",\"bb\"]\x7d\n\x00"] :=
  have hr : ∀ r ∈ (["a", "bb"] : List String), strlen r + 1 ≤ PAYLOAD_LIMIT := by
    decide
  ⟨⟨rfl, by decide, hr⟩,
    prepareSegments_no_empty_segment (exampleEnv (some ["a", "bb"])) examplePrefix "q" false
      exampleAdapter ["a", "bb"] rfl (by decide) hr, by decide⟩

end atmos

/-! ## The event trace of a run -/

namespace atmos

open ndn

end atmos
